import Mathlib

/-!
Verification development for the AnatomyGuru feedback-streamliner repository.

The development shallowly embeds the code paths the claims are about:

* the Netlify serverless handler in `netlify/functions/evaluate.js`
  (method gate, API-key gate, body parsing with a `"{}"` default, prompt
  validation, and the 8-second `Promise.race` against the generation call);
* the browser client `services/geminiService.ts`
  (prompt-part assembly, the posted request body, and the markdown-fence
  sanitization of the model output);
* `processFile` from `App.tsx` together with the `FileData` shape from
  `index.tsx`;
* the request body posted by the unnamed variant client
  (`src/unnamed/part_004`).

JSON values are modelled by the inductive type `Json`.  `JSON.stringify`
and `JSON.parse` of the JavaScript runtime are modelled by an executable
serializer and an executable fuelled recursive-descent parser over
`List Char`.  Numbers are modelled as integers (the repository never
produces fractional literals itself; floating-point formatting is outside
the embedding).  JavaScript string escaping is modelled for the escapes
`JSON.stringify` actually emits.  Asynchrony is modelled by a
`GenBehavior` record giving the settle time and settlement (fulfilment or
rejection) of the generation promise; the 8-second timer of the handler
races it in `raceOutcome`.
-/

/-- The JSON whitespace characters (also the common JavaScript `trim`
whitespace actually occurring in model output). -/
def isWsChar (c : Char) : Bool := c = ' ' || c = '\t' || c = '\n' || c = '\r'

/-- Skip leading whitespace, as the JSON grammar does between tokens. -/
def skipWs (l : List Char) : List Char := l.dropWhile isWsChar

/-- The left-brace character, `\x7b`. -/
def lbrace : Char := Char.ofNat 123

/-- The right-brace character, `\x7d`. -/
def rbrace : Char := Char.ofNat 125

/-- The backtick character used by markdown code fences. -/
def btick : Char := Char.ofNat 96

/-- JSON values.  Object fields keep their textual order, as JavaScript
objects do. -/
inductive Json where
| null : Json
| bool : Bool → Json
| num : Int → Json
| str : String → Json
| arr : List Json → Json
| obj : List (String × Json) → Json

/-- The decimal digit character for a digit value. -/
def digitChar (d : Nat) : Char := Char.ofNat (48 + d)

/-- Digit accumulation for decimal printing, most significant digit first.
The first argument is fuel; `n` itself is always enough. -/
def natCharsAux : Nat → Nat → List Char → List Char
| 0, _, acc => acc
| f+1, n, acc => if n = 0 then acc else natCharsAux f (n / 10) (digitChar (n % 10) :: acc)

/-- Decimal digits of a natural number, as `JSON.stringify` prints it. -/
def natChars (n : Nat) : List Char := if n = 0 then ['0'] else natCharsAux n n []

/-- Decimal form of an integer, as `JSON.stringify` prints it. -/
def intChars (n : Int) : List Char :=
  if n < 0 then '-' :: natChars n.natAbs else natChars n.natAbs

/-- Lower-case hexadecimal digit character, as used in `\u00..` escapes. -/
def hexDigitChar (d : Nat) : Char :=
  if d < 10 then Char.ofNat (48 + d) else Char.ofNat (87 + d)

/-- The escape `JSON.stringify` emits for one character of a string. -/
def escChar (c : Char) : List Char :=
  if c = '"' then ['\\', '"']
  else if c = '\\' then ['\\', '\\']
  else if c = '\n' then ['\\', 'n']
  else if c = '\t' then ['\\', 't']
  else if c = '\r' then ['\\', 'r']
  else if c.toNat = 8 then ['\\', 'b']
  else if c.toNat = 12 then ['\\', 'f']
  else if c.toNat < 32 then
    ['\\', 'u', '0', '0', hexDigitChar (c.toNat / 16), hexDigitChar (c.toNat % 16)]
  else [c]

/-- Escape every character of a string body. -/
def escapeChars : List Char → List Char
| [] => []
| c :: cs => escChar c ++ escapeChars cs

/-- A JSON string literal: quote, escaped body, quote. -/
def quoteChars (s : String) : List Char := '"' :: (escapeChars s.data ++ ['"'])

mutual

/-- `JSON.stringify`, producing the compact (separator-free) form the
JavaScript runtime produces. -/
def stringifyChars : Json → List Char
| .null => ['n', 'u', 'l', 'l']
| .bool true => 't' :: ['r', 'u', 'e']
| .bool false => ['f', 'a', 'l', 's', 'e']
| .num n => intChars n
| .str s => quoteChars s
| .arr [] => ['[', ']']
| .arr (x :: xs) => '[' :: ((stringifyChars x ++ stringifyTail xs) ++ [']'])
| .obj [] => [lbrace, rbrace]
| .obj ((k, v) :: fs) =>
  lbrace :: ((quoteChars k ++ ':' :: stringifyChars v ++ fieldsTail fs) ++ [rbrace])

/-- Comma-separated remaining array elements. -/
def stringifyTail : List Json → List Char
| [] => []
| y :: ys => ',' :: (stringifyChars y ++ stringifyTail ys)

/-- Comma-separated remaining object fields. -/
def fieldsTail : List (String × Json) → List Char
| [] => []
| (k, v) :: qs => ',' :: (quoteChars k ++ ':' :: stringifyChars v ++ fieldsTail qs)

end

/-- `JSON.stringify` as a `String`-valued function. -/
def stringify (j : Json) : String := String.mk (stringifyChars j)

/-- Value of a hexadecimal digit character. -/
def hexVal (c : Char) : Option Nat :=
  if 48 ≤ c.toNat ∧ c.toNat ≤ 57 then some (c.toNat - 48)
  else if 97 ≤ c.toNat ∧ c.toNat ≤ 102 then some (c.toNat - 87)
  else if 65 ≤ c.toNat ∧ c.toNat ≤ 70 then some (c.toNat - 55)
  else none

/-- Fuelled worker for `parseStringBody`; the input length is always
enough fuel. -/
def parseStringBodyF : Nat → List Char → Option (List Char × List Char)
| 0, _ => none
| _, [] => none
| f+1, c :: r =>
  if c = '"' then some ([], r)
  else if c = '\\' then
    match r with
    | [] => none
    | e :: r2 =>
      if e = '"' then (parseStringBodyF f r2).map (fun p => ('"' :: p.1, p.2))
      else if e = '\\' then (parseStringBodyF f r2).map (fun p => ('\\' :: p.1, p.2))
      else if e = '/' then (parseStringBodyF f r2).map (fun p => ('/' :: p.1, p.2))
      else if e = 'n' then (parseStringBodyF f r2).map (fun p => ('\n' :: p.1, p.2))
      else if e = 't' then (parseStringBodyF f r2).map (fun p => ('\t' :: p.1, p.2))
      else if e = 'r' then (parseStringBodyF f r2).map (fun p => ('\r' :: p.1, p.2))
      else if e = 'b' then (parseStringBodyF f r2).map (fun p => (Char.ofNat 8 :: p.1, p.2))
      else if e = 'f' then (parseStringBodyF f r2).map (fun p => (Char.ofNat 12 :: p.1, p.2))
      else if e = 'u' then
        match r2 with
        | h1 :: h2 :: h3 :: h4 :: r3 =>
          match hexVal h1, hexVal h2, hexVal h3, hexVal h4 with
          | some a, some b, some c2, some d =>
            (parseStringBodyF f r3).map
              (fun p => (Char.ofNat (((a * 16 + b) * 16 + c2) * 16 + d) :: p.1, p.2))
          | _, _, _, _ => none
        | _ => none
      else none
  else if c.toNat < 32 then none
  else (parseStringBodyF f r).map (fun p => (c :: p.1, p.2))

/-- Parse the body of a JSON string literal (after the opening quote),
returning the decoded characters and the input following the closing
quote.  Raw control characters are rejected, as `JSON.parse` rejects
them. -/
def parseStringBody (l : List Char) : Option (List Char × List Char) :=
  parseStringBodyF (l.length + 1) l

/-- Numeric value of a digit character. -/
def digitVal (c : Char) : Nat := c.toNat - 48

/-- Decimal value of a most-significant-first digit string. -/
def digitsToNat (ds : List Char) : Nat := ds.foldl (fun a c => a * 10 + digitVal c) 0

/-- The JSON numeral grammar `0 | [1-9][0-9]*`: a digit run is rejected
when it starts with `0` and has further digits, as `JSON.parse` rejects
`01`. -/
def noLeadingZero : List Char → Bool
| c :: _ :: _ => !(c == '0')
| _ => true

/-- Parse an integer JSON number (the only numeric form the repository
itself emits or round-trips).  Leading-zero numerals are a
`SyntaxError` for `JSON.parse` and yield `none`. -/
def parseNumber (l : List Char) : Option (Json × List Char) :=
  match l with
  | [] => none
  | c :: r =>
    if c = '-' then
      match r.span Char.isDigit with
      | (ds, rest) =>
        if ds.isEmpty then none
        else if noLeadingZero ds then some (Json.num (-(digitsToNat ds : Int)), rest)
        else none
    else
      match (c :: r).span Char.isDigit with
      | (ds, rest) =>
        if ds.isEmpty then none
        else if noLeadingZero ds then some (Json.num ((digitsToNat ds : Int)), rest)
        else none

/-- One step of the JSON value grammar; `pi` and `pf` parse the element
and field lists of a non-empty array or object. -/
def parseValCore (pi : List Char → Option (List Json × List Char))
    (pf : List Char → Option (List (String × Json) × List Char))
    (l : List Char) : Option (Json × List Char) :=
  match skipWs l with
  | [] => none
  | c :: r =>
    if c = '"' then (parseStringBody r).map (fun p => (Json.str (String.mk p.1), p.2))
    else if c = '[' then
      match skipWs r with
      | ']' :: r2 => some (Json.arr [], r2)
      | r2 => (pi r2).map (fun p => (Json.arr p.1, p.2))
    else if c = lbrace then
      match skipWs r with
      | [] => none
      | c2 :: r3 =>
        if c2 = rbrace then some (Json.obj [], r3)
        else (pf (c2 :: r3)).map (fun p => (Json.obj p.1, p.2))
    else if c = 't' then
      match r with
      | 'r' :: 'u' :: 'e' :: r2 => some (Json.bool true, r2)
      | _ => none
    else if c = 'f' then
      match r with
      | 'a' :: 'l' :: 's' :: 'e' :: r2 => some (Json.bool false, r2)
      | _ => none
    else if c = 'n' then
      match r with
      | 'u' :: 'l' :: 'l' :: r2 => some (Json.null, r2)
      | _ => none
    else parseNumber (c :: r)

/-- One step of the array-element list grammar. -/
def parseItemsCore (pv : List Char → Option (Json × List Char))
    (pi : List Char → Option (List Json × List Char))
    (l : List Char) : Option (List Json × List Char) :=
  match pv l with
  | none => none
  | some (v, r) =>
    match skipWs r with
    | ',' :: r2 => (pi r2).map (fun p => (v :: p.1, p.2))
    | ']' :: r2 => some ([v], r2)
    | _ => none

/-- One step of the object-field list grammar. -/
def parseFieldsCore (pv : List Char → Option (Json × List Char))
    (pf : List Char → Option (List (String × Json) × List Char))
    (l : List Char) : Option (List (String × Json) × List Char) :=
  match skipWs l with
  | '"' :: r =>
    match parseStringBody r with
    | none => none
    | some (kcs, r2) =>
      match skipWs r2 with
      | ':' :: r3 =>
        match pv r3 with
        | none => none
        | some (v, r4) =>
          match skipWs r4 with
          | [] => none
          | c5 :: r5 =>
            if c5 = ',' then (pf r5).map (fun p => ((String.mk kcs, v) :: p.1, p.2))
            else if c5 = rbrace then some ([(String.mk kcs, v)], r5)
            else none
      | _ => none
  | _ => none

mutual

/-- Fuelled JSON value parser. -/
def parseVal : Nat → List Char → Option (Json × List Char)
| 0, _ => none
| f+1, l => parseValCore (parseItems f) (parseFields f) l

/-- Fuelled parser for a non-empty array-element list. -/
def parseItems : Nat → List Char → Option (List Json × List Char)
| 0, _ => none
| f+1, l => parseItemsCore (parseVal f) (parseItems f) l

/-- Fuelled parser for a non-empty object-field list. -/
def parseFields : Nat → List Char → Option (List (String × Json) × List Char)
| 0, _ => none
| f+1, l => parseFieldsCore (parseVal f) (parseFields f) l

end

/-- `JSON.parse` over characters: parse one value with enough fuel and
require only whitespace after it. -/
def jsonParseChars (l : List Char) : Option Json :=
  match parseVal (l.length + 1) l with
  | some (v, rest) => if skipWs rest = [] then some v else none
  | none => none

/-- `JSON.parse` on strings.  `none` models a thrown `SyntaxError`. -/
def jsonParse (s : String) : Option Json := jsonParseChars s.data

/-! ## JavaScript semantics helpers -/

/-- JavaScript truthiness of a JSON value (`NaN` cannot arise in the
integer model). -/
def jsTruthy : Json → Bool
| .null => false
| .bool b => b
| .num n => n != 0
| .str s => decide (s ≠ "")
| .arr _ => true
| .obj _ => true

/-- Property access `obj.k` on a parsed JSON value: `none` models
`undefined`.  Later duplicate keys overwrite earlier ones, as in
JavaScript object construction. -/
def getField : Json → String → Option Json
| .obj fs, k => (fs.reverse.find? (fun p => p.1 == k)).map (fun p => p.2)
| _, _ => none

/-- Truthiness of a possibly-undefined value, as in `if (!prompt)`. -/
def jsTruthyOpt : Option Json → Bool
| none => false
| some v => jsTruthy v

/-- Truthiness of a possibly-undefined string property, as in
`if (sourceDoc.text)`. -/
def jsTruthyOptStr : Option String → Bool
| none => false
| some s => decide (s ≠ "")

/-- Falsiness of `process.env.API_KEY`: unset or the empty string. -/
def jsFalsyOptStr : Option String → Bool
| none => true
| some s => decide (s = "")

/-- The JavaScript `a || b` on strings (used for `err.message || ...`). -/
def jsStrOr (a b : String) : String := if a = "" then b else a

/-! ## The serverless handler of `netlify/functions/evaluate.js` -/

/-- The slice of a Netlify event the handler reads: the HTTP method and
the raw request body (`none` models an absent or `null` body). -/
structure NetlifyEvent where
  httpMethod : String
  body : Option String

/-- The slice of `process.env` the handler reads. -/
structure ProcessEnv where
  apiKey : Option String

/-- The behaviour of the generation promise in one run: when it settles
(`none` models never settling) and whether it fulfils with the model text
or rejects with an error message. -/
structure GenBehavior where
  settleAt : Option Nat
  result : Except String String

/-- An HTTP response as the handler builds it: status code, the
`Content-Type` header, and the serialized body. -/
structure HandlerResponse where
  statusCode : Nat
  contentType : String
  body : String

/-- The error strings of `evaluate.js`, verbatim. -/
def methodNotAllowedMsg : String := "Method Not Allowed"

/-- Error for an unset `API_KEY`, verbatim from `evaluate.js`. -/
def missingKeyMsg : String :=
  "GEMINI_API_KEY (API_KEY) is not configured in the environment."

/-- Error for a missing or falsy `prompt` field, verbatim. -/
def missingPromptMsg : String := "Missing \x27prompt\x27 in request body."

/-- The rejection message of the 8-second timer, verbatim. -/
def timeoutMsg : String := "AI evaluation timed out after 8 seconds"

/-- Fallback of `err.message || "Internal Server Error"`, verbatim. -/
def internalErrorMsg : String := "Internal Server Error"

/-- Modelled message of the `SyntaxError` thrown by `JSON.parse` on a
malformed body; the handler only forwards it, never inspects it. -/
def parseFailMsg : String := "Unexpected token in JSON"

/-- Whether a parsed body is JSON `null`: destructuring
`const \x7b prompt \x7d = body` throws a `TypeError` exactly then. -/
def Json.isNull : Json → Bool
| .null => true
| _ => false

/-- Modelled message of the `TypeError` thrown by
`const \x7b prompt \x7d = body` when the parsed body is `null`; the
handler only forwards it via `err.message`, never inspects it. -/
def destructureNullMsg : String :=
  "Cannot destructure property \x27prompt\x27 of \x27body\x27 as it is null."

/-- The uniform error envelope `{ success: false, error: msg }`. -/
def errEnvelope (msg : String) : Json :=
  Json.obj [("success", Json.bool false), ("error", Json.str msg)]

/-- The success envelope `{ success: true, output }`. -/
def okEnvelope (output : String) : Json :=
  Json.obj [("success", Json.bool true), ("output", Json.str output)]

/-- A response with `Content-Type: application/json` and a stringified
envelope, as every return site of the handler builds it. -/
def jsonResponse (code : Nat) (j : Json) : HandlerResponse :=
  { statusCode := code, contentType := "application/json", body := stringify j }

/-- The timer bound of the handler: 8000 milliseconds. -/
def timeoutMs : Nat := 8000

/-- `Promise.race([generationPromise, timeoutPromise])`: the generation
settlement wins exactly when it arrives strictly before the 8000 ms
timer; otherwise the timer's rejection wins.  The loser is abandoned. -/
def raceOutcome (gen : GenBehavior) : Except String String :=
  match gen.settleAt with
  | some t => if t < timeoutMs then gen.result else Except.error timeoutMsg
  | none => Except.error timeoutMsg

/-- `event.body || "{}"`. -/
def jsBodyOr : Option String → String
| none => "\x7b\x7d"
| some s => if s = "" then "\x7b\x7d" else s

/-- The handler of `netlify/functions/evaluate.js`: method gate, API-key
gate, body parse (a parse failure reaches the surrounding `catch`), the
destructuring `const \x7b prompt \x7d = body` (which throws into the
`catch` when the parsed body is `null`), prompt validation, then the
awaited race whose rejection also reaches the `catch`. -/
def handler (env : ProcessEnv) (event : NetlifyEvent) (gen : GenBehavior) : HandlerResponse :=
  if event.httpMethod ≠ "POST" then jsonResponse 405 (errEnvelope methodNotAllowedMsg)
  else if jsFalsyOptStr env.apiKey then jsonResponse 200 (errEnvelope missingKeyMsg)
  else
    match jsonParse (jsBodyOr event.body) with
    | none => jsonResponse 200 (errEnvelope (jsStrOr parseFailMsg internalErrorMsg))
    | some bodyJson =>
      if bodyJson.isNull then
        jsonResponse 200 (errEnvelope (jsStrOr destructureNullMsg internalErrorMsg))
      else if !(jsTruthyOpt (getField bodyJson ("prompt"))) then
        jsonResponse 200 (errEnvelope missingPromptMsg)
      else
        match raceOutcome gen with
        | Except.ok output => jsonResponse 200 (okEnvelope output)
        | Except.error m => jsonResponse 200 (errEnvelope (jsStrOr m internalErrorMsg))

/-! ## The client of `services/geminiService.ts` -/

/-- The `FileData` shape declared in `index.tsx`. -/
structure FileData where
  base64 : Option String
  mimeType : Option String
  text : Option String
  name : String
  isDocx : Bool

/-- The `EvaluationMode` union type. -/
inductive EvaluationMode where
| withManual : EvaluationMode
| withoutManual : EvaluationMode
deriving DecidableEq

/-- The string value of an evaluation mode. -/
def modeString : EvaluationMode → String
| .withManual => "with-manual"
| .withoutManual => "without-manual"

/-- Head of the system-instructions template, up to the interpolated
mode. -/
def instructionsHead : String :=
  "\n      You are the \"Anatomy Guru Master Evaluator\". Create a medical audit report.\n      SOURCE DOC: Question Paper, Answer Key, and Student Answers.\n      MODE: "

/-- The with-manual arm of the template's conditional. -/
def withManualRule : String :=
  "Prioritize Answer Key for facts, Faculty Notes for marks. Flag factual contradictions."

/-- The without-manual arm of the template's conditional. -/
def withoutManualRule : String := "Evaluate ALL questions in QP against Key."

/-- Tail of the template: the output requirements and the JSON schema. -/
def instructionsTail : String :=
  "\n      \n      OUTPUT: Return strictly valid JSON.\n      JSON Structure:\n      \x7b\n        \"studentName\": string,\n        \"testTitle\": string,\n        \"testTopics\": string,\n        \"testDate\": string,\n        \"totalScore\": number,\n        \"maxScore\": number,\n        \"questions\": [\n          \x7b\n            \"qNo\": string,\n            \"feedbackPoints\": string[],\n            \"marks\": number,\n            \"maxMarks\": number,\n            \"isCorrect\": boolean,\n            \"isFlagged\": boolean\n          \x7d\n        ],\n        \"generalFeedback\": \x7b\n          \"overallPerformance\": string[],\n          \"mcqs\": string[],\n          \"contentAccuracy\": string[],\n          \"completenessOfAnswers\": string[],\n          \"presentationDiagrams\": string[],\n          \"investigations\": string[],\n          \"attemptingQuestions\": string[],\n          \"actionPoints\": string[]\n        \x7d\n      \x7d\n    "

/-- The `systemInstructions` template literal of
`generateStructuredFeedback`. -/
def systemInstructions (mode : EvaluationMode) : String :=
  instructionsHead ++ modeString mode ++ ".\n      " ++
    (if mode = EvaluationMode.withManual then withManualRule else withoutManualRule) ++
    instructionsTail

/-- A prompt part: plain text or inline base64 data with a MIME type. -/
inductive PromptPart where
| text : String → PromptPart
| inlineData : String → String → PromptPart

/-- The `promptParts` array assembled by `generateStructuredFeedback`:
instructions, the source document (text if truthy, else inline data if
truthy, else nothing), the faculty notes under the same rules only in
with-manual mode with a non-null document, and the final directive. -/
def buildPromptParts (sourceDoc : FileData) (dirtyFeedbackDoc : Option FileData)
    (mode : EvaluationMode) : List PromptPart :=
  ([PromptPart.text (systemInstructions mode)] ++
    (if jsTruthyOptStr sourceDoc.text then
      [PromptPart.text (("Student Paper Text: ") ++ sourceDoc.text.getD (""))]
     else if jsTruthyOptStr sourceDoc.base64 && jsTruthyOptStr sourceDoc.mimeType then
      [PromptPart.inlineData (sourceDoc.base64.getD ("")) (sourceDoc.mimeType.getD (""))]
     else []) ++
    (match mode, dirtyFeedbackDoc with
     | EvaluationMode.withManual, some d =>
       if jsTruthyOptStr d.text then
         [PromptPart.text (("Faculty Notes Text: ") ++ d.text.getD (""))]
       else if jsTruthyOptStr d.base64 && jsTruthyOptStr d.mimeType then
         [PromptPart.inlineData (d.base64.getD ("")) (d.mimeType.getD (""))]
       else []
     | _, _ => [])) ++
  [PromptPart.text ("Based on the provided medical evaluation documents, generate the comprehensive evaluation report JSON.")]

/-- Serialization of a prompt part inside the posted JSON body. -/
def promptPartToJson : PromptPart → Json
| .text s => Json.obj [("text", Json.str s)]
| .inlineData d m =>
  Json.obj [("inlineData", Json.obj [("data", Json.str d), ("mimeType", Json.str m)])]

/-- The JSON body `{ prompt: promptParts }` the live client posts to
`/.netlify/functions/evaluate`. -/
def requestBodyJson (s : FileData) (d : Option FileData) (m : EvaluationMode) : Json :=
  Json.obj [("prompt", Json.arr ((buildPromptParts s d m).map promptPartToJson))]

/-- The posted body string, `JSON.stringify({ prompt: promptParts })`. -/
def requestBodyString (s : FileData) (d : Option FileData) (m : EvaluationMode) : String :=
  stringify (requestBodyJson s d m)

/-! ## Output sanitization of `generateStructuredFeedback` -/

/-- JavaScript `String.prototype.trim` over the whitespace occurring in
model output. -/
def jsTrim (l : List Char) : List Char :=
  ((l.dropWhile isWsChar).reverse.dropWhile isWsChar).reverse

/-- Three backticks, the markdown fence delimiter. -/
def fence3 : List Char := [btick, btick, btick]

/-- `cleanOutput.replace(/^\x60\x60\x60(json)?\n?/, '')`: if the input
starts with a fence, drop it, an optional `json` tag, and one optional
newline. -/
def stripFenceOpen (l : List Char) : List Char :=
  if List.isPrefixOf fence3 l then
    match (if List.isPrefixOf (['j', 's', 'o', 'n']) (l.drop 3) then (l.drop 3).drop 4 else l.drop 3) with
    | '\n' :: r => r
    | l2 => l2
  else l

/-- `.replace(/\n?\x60\x60\x60$/, '')`: drop a trailing fence and one
optional newline before it. -/
def stripFenceClose (l : List Char) : List Char :=
  if List.isSuffixOf ('\n' :: fence3) l then l.take (l.length - 4)
  else if List.isSuffixOf fence3 l then l.take (l.length - 3)
  else l

/-- The sanitization step of `generateStructuredFeedback`: trim, then
strip the fence pair only when the trimmed output starts with one. -/
def sanitizeOutput (l : List Char) : List Char :=
  if List.isPrefixOf fence3 (jsTrim l) then stripFenceClose (stripFenceOpen (jsTrim l))
  else jsTrim l

/-- Sanitize then `JSON.parse`: the report produced from the server
envelope's `output` string (`none` models the thrown parse error). -/
def parseModelOutput (output : String) : Option Json :=
  jsonParseChars (sanitizeOutput output.data)

/-! ## `processFile` of `App.tsx` -/

/-- An uploaded browser `File` together with what the external
extractors would yield on it: `extractedText` is what
`mammoth.extractRawText` would return, `base64Content` what the
`FileReader` data-URL conversion would return. -/
structure UploadFile where
  name : String
  mimeType : String
  extractedText : String
  base64Content : String

/-- `file.name.endsWith('.docx')`. -/
def endsWithDocx (name : String) : Bool := List.isSuffixOf (".docx".data) name.data

/-- `processFile` of `App.tsx`: docx files carry extracted text, all
other files carry base64 bytes plus the MIME type; the name is always
kept. -/
def processFile (file : UploadFile) : FileData :=
  if endsWithDocx file.name then
    { base64 := none, mimeType := none, text := some file.extractedText,
      name := file.name, isDocx := true }
  else
    { base64 := some file.base64Content, mimeType := some file.mimeType, text := none,
      name := file.name, isDocx := false }

/-! ## The unnamed variant client (`src/unnamed/part_004`) -/

/-- `JSON.stringify` of a `FileData` value: absent (`undefined`) fields
are dropped, in the field order the object literals of `processFile`
produce. -/
def fileDataJson (f : FileData) : Json :=
  Json.obj
    ((match f.base64 with | some b => [("base64", Json.str b)] | none => []) ++
     (match f.mimeType with | some m => [("mimeType", Json.str m)] | none => []) ++
     (match f.text with | some t => [("text", Json.str t)] | none => []) ++
     [("name", Json.str f.name), ("isDocx", Json.bool f.isDocx)])

/-- The JSON body `{ sourceDoc, dirtyFeedbackDoc, mode }` posted by the
variant client in `src/unnamed/part_004` (a `null` document serializes
as JSON `null`). -/
def part004RequestBodyJson (s : FileData) (d : Option FileData) (m : EvaluationMode) : Json :=
  Json.obj
    [("sourceDoc", fileDataJson s),
     ("dirtyFeedbackDoc", match d with | none => Json.null | some f => fileDataJson f),
     ("mode", Json.str (modeString m))]

/-- Safe continuation after a serialized value: empty, or not starting
with a digit (so number scanning stops where the value ends). -/
def restSafe : List Char → Bool
| [] => true
| c :: _ => !c.isDigit

/-! ## Character and digit lemmas -/

theorem digitChar_isDigit (d : Nat) (h : d < 10) : (digitChar d).isDigit = true := by
  interval_cases d <;> decide

theorem digitVal_digitChar (d : Nat) (h : d < 10) : digitVal (digitChar d) = d := by
  interval_cases d <;> decide

theorem isDigit_not_ws (c : Char) (h : c.isDigit = true) : isWsChar c = false := by
  cases hc : isWsChar c with
  | false => rfl
  | true =>
    exfalso
    simp only [isWsChar, Bool.or_eq_true, decide_eq_true_eq] at hc
    rcases hc with ((h1 | h1) | h1) | h1 <;> subst h1 <;> exact absurd h (by decide)

theorem isDigit_ne (c : Char) (x : Char) (h : c.isDigit = true) (hx : x.isDigit = false) :
    ¬ (c = x) := by
  intro he
  subst he
  rw [h] at hx
  exact Bool.noConfusion hx

/-! ## Decimal printing round-trip -/

theorem natCharsAux_zero (f : Nat) (acc : List Char) : natCharsAux f 0 acc = acc := by
  cases f <;> simp [natCharsAux]

theorem natCharsAux_spec : ∀ f n acc, 0 < n → n ≤ f →
    ∃ ds, natCharsAux f n acc = ds ++ acc ∧ ds ≠ [] ∧ (∀ c ∈ ds, c.isDigit = true) ∧
      ∀ a : Nat, List.foldl (fun x c => x * 10 + digitVal c) a ds = a * 10 ^ ds.length + n := by
  intro f
  induction f with
  | zero => intro n acc h1 h2; exact absurd h1 (by omega)
  | succ f ih =>
    intro n acc h1 h2
    rw [natCharsAux, if_neg (by omega)]
    by_cases h10 : n < 10
    · have hz : n / 10 = 0 := by omega
      rw [hz, natCharsAux_zero]
      refine ⟨[digitChar (n % 10)], rfl, by simp, ?_, ?_⟩
      · intro c hc
        simp at hc
        subst hc
        exact digitChar_isDigit _ (by omega)
      · intro a
        have hd : digitVal (digitChar (n % 10)) = n % 10 := digitVal_digitChar (n % 10) (by omega)
        simp [List.foldl, hd]
        omega
    · obtain ⟨ds, hds, hne, hdig, hfold⟩ :=
        ih (n / 10) (digitChar (n % 10) :: acc) (by omega) (by omega)
      refine ⟨ds ++ [digitChar (n % 10)], by simp [hds], by simp [hne], ?_, ?_⟩
      · intro c hc
        rcases List.mem_append.mp hc with h | h
        · exact hdig c h
        · simp at h
          subst h
          exact digitChar_isDigit _ (by omega)
      · intro a
        rw [List.foldl_append, hfold a]
        have hnm : n / 10 * 10 + n % 10 = n := by omega
        calc (fun x c => x * 10 + digitVal c) (a * 10 ^ ds.length + n / 10) (digitChar (n % 10))
            = (a * 10 ^ ds.length + n / 10) * 10 + digitVal (digitChar (n % 10)) := rfl
          _ = (a * 10 ^ ds.length + n / 10) * 10 + n % 10 := by
              rw [digitVal_digitChar (n % 10) (by omega)]
          _ = a * (10 ^ ds.length * 10) + (n / 10 * 10 + n % 10) := by ring
          _ = a * 10 ^ (ds ++ [digitChar (n % 10)]).length + n := by
              rw [hnm, List.length_append, List.length_singleton, ← pow_succ]

theorem natChars_spec (n : Nat) :
    natChars n ≠ [] ∧ (∀ c ∈ natChars n, c.isDigit = true) ∧ digitsToNat (natChars n) = n := by
  by_cases h : n = 0
  · subst h
    exact ⟨by decide, by decide, by decide⟩
  · obtain ⟨ds, hds, hne, hdig, hfold⟩ := natCharsAux_spec n n [] (by omega) le_rfl
    rw [natChars, if_neg h, hds]
    simp only [List.append_nil]
    refine ⟨hne, hdig, ?_⟩
    have hf := hfold 0
    simpa [digitsToNat] using hf

theorem natCharsAux_head : ∀ f n acc, 0 < n → n ≤ f →
    ∃ d t, natCharsAux f n acc = digitChar d :: t ∧ 1 ≤ d ∧ d ≤ 9 := by
  intro f
  induction f with
  | zero => intro n acc h1 h2; exact absurd h1 (by omega)
  | succ f ih =>
    intro n acc h1 h2
    rw [natCharsAux, if_neg (by omega)]
    by_cases h10 : n < 10
    · have hz : n / 10 = 0 := by omega
      rw [hz, natCharsAux_zero]
      exact ⟨n % 10, acc, rfl, by omega, by omega⟩
    · exact ih (n / 10) (digitChar (n % 10) :: acc) (by omega) (by omega)

theorem natChars_lead (n : Nat) : noLeadingZero (natChars n) = true := by
  by_cases h : n = 0
  · subst h
    decide
  · rw [natChars, if_neg h]
    obtain ⟨d, t, hds, h1, h9⟩ := natCharsAux_head n n [] (by omega) le_rfl
    rw [hds]
    cases t with
    | nil => rfl
    | cons c2 t2 =>
      have hne : ¬ (digitChar d = '0') := by
        intro he
        have h0 := digitVal_digitChar d (by omega)
        rw [he] at h0
        have hz : digitVal '0' = 0 := by decide
        omega
      simp [noLeadingZero, hne]

/-! ## Scanning digits -/

theorem takeWhile_digits (ds rest : List Char) (hds : ∀ c ∈ ds, c.isDigit = true)
    (hr : restSafe rest = true) : (ds ++ rest).takeWhile Char.isDigit = ds := by
  induction ds with
  | nil =>
    cases rest with
    | nil => rfl
    | cons c t =>
      have hcd : c.isDigit = false := by
        cases hcd : c.isDigit with
        | false => rfl
        | true => simp [restSafe, hcd] at hr
      simp [List.takeWhile, hcd]
  | cons c cs ih =>
    have hc := hds c (by simp)
    simp only [List.cons_append, List.takeWhile, hc]
    rw [List.append_eq] at *
    rw [ih (fun x hx => hds x (by simp [hx]))]

theorem dropWhile_digits (ds rest : List Char) (hds : ∀ c ∈ ds, c.isDigit = true)
    (hr : restSafe rest = true) : (ds ++ rest).dropWhile Char.isDigit = rest := by
  induction ds with
  | nil =>
    cases rest with
    | nil => rfl
    | cons c t =>
      have hcd : c.isDigit = false := by
        cases hcd : c.isDigit with
        | false => rfl
        | true => simp [restSafe, hcd] at hr
      simp [List.dropWhile, hcd]
  | cons c cs ih =>
    have hc := hds c (by simp)
    simp only [List.cons_append, List.dropWhile, hc]
    exact ih (fun x hx => hds x (by simp [hx]))

theorem span_digits (ds rest : List Char) (hds : ∀ c ∈ ds, c.isDigit = true)
    (hr : restSafe rest = true) : (ds ++ rest).span Char.isDigit = (ds, rest) := by
  rw [List.span_eq_take_drop, takeWhile_digits ds rest hds hr, dropWhile_digits ds rest hds hr]

/-! ## Whitespace skipping -/

theorem skipWs_nows (c : Char) (l : List Char) (h : isWsChar c = false) :
    skipWs (c :: l) = c :: l := by
  simp [skipWs, List.dropWhile, h]

theorem dropWhile_ws_all (ws l : List Char) (h : ∀ c ∈ ws, isWsChar c = true) :
    (ws ++ l).dropWhile isWsChar = l.dropWhile isWsChar := by
  induction ws with
  | nil => rfl
  | cons a as ih =>
    simp only [List.cons_append, List.dropWhile]
    rw [h a (by simp)]
    exact ih (fun c hc => h c (by simp [hc]))

theorem dropWhile_head_nows (c : Char) (t : List Char) (hc : isWsChar c = false) :
    (c :: t).dropWhile isWsChar = c :: t := by
  simp [List.dropWhile, hc]

/-! ## String-escape round-trip -/

theorem hexVal_hexDigitChar (d : Nat) (h : d < 16) : hexVal (hexDigitChar d) = some d := by
  interval_cases d <;> decide

theorem escChar_length_pos (c : Char) : 1 ≤ (escChar c).length := by
  rw [escChar]
  split_ifs <;> simp

theorem parseStringBodyF_u (f : Nat) (c1 c2 c3 c4 : Char) (r : List Char) (a b d e : Nat)
    (e1 : hexVal c1 = some a) (e2 : hexVal c2 = some b) (e3 : hexVal c3 = some d)
    (e4 : hexVal c4 = some e) :
    parseStringBodyF (f+1) ('\\' :: 'u' :: c1 :: c2 :: c3 :: c4 :: r) =
      (parseStringBodyF f r).map
        (fun p => (Char.ofNat (((a * 16 + b) * 16 + d) * 16 + e) :: p.1, p.2)) := by
  show (match hexVal c1, hexVal c2, hexVal c3, hexVal c4 with
        | some a, some b, some d, some e =>
          (parseStringBodyF f r).map
            (fun p => (Char.ofNat (((a * 16 + b) * 16 + d) * 16 + e) :: p.1, p.2))
        | _, _, _, _ => none) =
      (parseStringBodyF f r).map
        (fun p => (Char.ofNat (((a * 16 + b) * 16 + d) * 16 + e) :: p.1, p.2))
  rw [e1, e2, e3, e4]

theorem parseStringBodyF_plain (f : Nat) (c : Char) (r : List Char)
    (hq : ¬ (c = '"')) (hb : ¬ (c = '\\')) (hlt : ¬ (c.toNat < 32)) :
    parseStringBodyF (f+1) (c :: r) = (parseStringBodyF f r).map (fun p => (c :: p.1, p.2)) := by
  show (if c = '"' then some ([], r)
    else if c = '\\' then
      match r with
      | [] => none
      | e :: r2 =>
        if e = '"' then (parseStringBodyF f r2).map (fun p => ('"' :: p.1, p.2))
        else if e = '\\' then (parseStringBodyF f r2).map (fun p => ('\\' :: p.1, p.2))
        else if e = '/' then (parseStringBodyF f r2).map (fun p => ('/' :: p.1, p.2))
        else if e = 'n' then (parseStringBodyF f r2).map (fun p => ('\n' :: p.1, p.2))
        else if e = 't' then (parseStringBodyF f r2).map (fun p => ('\t' :: p.1, p.2))
        else if e = 'r' then (parseStringBodyF f r2).map (fun p => ('\r' :: p.1, p.2))
        else if e = 'b' then (parseStringBodyF f r2).map (fun p => (Char.ofNat 8 :: p.1, p.2))
        else if e = 'f' then (parseStringBodyF f r2).map (fun p => (Char.ofNat 12 :: p.1, p.2))
        else if e = 'u' then
          match r2 with
          | h1 :: h2 :: h3 :: h4 :: r3 =>
            match hexVal h1, hexVal h2, hexVal h3, hexVal h4 with
            | some a, some b, some c2, some d =>
              (parseStringBodyF f r3).map
                (fun p => (Char.ofNat (((a * 16 + b) * 16 + c2) * 16 + d) :: p.1, p.2))
            | _, _, _, _ => none
          | _ => none
        else none
    else if c.toNat < 32 then none
    else (parseStringBodyF f r).map (fun p => (c :: p.1, p.2))) =
    (parseStringBodyF f r).map (fun p => (c :: p.1, p.2))
  rw [if_neg hq, if_neg hb, if_neg hlt]

theorem parseStringBodyF_escape : ∀ (s : List Char) (f : Nat) (rest : List Char),
    (escapeChars s).length < f →
    parseStringBodyF f (escapeChars s ++ '"' :: rest) = some (s, rest) := by
  intro s
  induction s with
  | nil =>
    intro f rest hf
    obtain ⟨f0, rfl⟩ : ∃ f0, f = f0 + 1 := ⟨f - 1, by omega⟩
    rfl
  | cons c cs ih =>
    intro f rest hf
    have hlen : (escChar c).length + (escapeChars cs).length + 1 ≤ f := by
      have h1 := escChar_length_pos c
      simp only [escapeChars, List.length_append] at hf
      omega
    have hcs : (escapeChars cs).length < f - 1 := by
      have h1 := escChar_length_pos c
      omega
    obtain ⟨f0, rfl⟩ : ∃ f0, f = f0 + 1 := ⟨f - 1, by omega⟩
    simp only [Nat.add_sub_cancel] at hcs
    simp only [escapeChars, List.append_assoc]
    rw [escChar]
    split_ifs with h1 h2 h3 h4 h5 h6 h7 h8
    · subst h1
      show (parseStringBodyF f0 (escapeChars cs ++ '"' :: rest)).map
        (fun p => ('"' :: p.1, p.2)) = some ('"' :: cs, rest)
      rw [ih f0 rest hcs]
      rfl
    · subst h2
      show (parseStringBodyF f0 (escapeChars cs ++ '"' :: rest)).map
        (fun p => ('\\' :: p.1, p.2)) = some ('\\' :: cs, rest)
      rw [ih f0 rest hcs]
      rfl
    · subst h3
      show (parseStringBodyF f0 (escapeChars cs ++ '"' :: rest)).map
        (fun p => ('\n' :: p.1, p.2)) = some ('\n' :: cs, rest)
      rw [ih f0 rest hcs]
      rfl
    · subst h4
      show (parseStringBodyF f0 (escapeChars cs ++ '"' :: rest)).map
        (fun p => ('\t' :: p.1, p.2)) = some ('\t' :: cs, rest)
      rw [ih f0 rest hcs]
      rfl
    · subst h5
      show (parseStringBodyF f0 (escapeChars cs ++ '"' :: rest)).map
        (fun p => ('\r' :: p.1, p.2)) = some ('\r' :: cs, rest)
      rw [ih f0 rest hcs]
      rfl
    · have hc : c = Char.ofNat 8 := (Char.ofNat_toNat c).symm.trans (congrArg Char.ofNat h6)
      subst hc
      show (parseStringBodyF f0 (escapeChars cs ++ '"' :: rest)).map
        (fun p => (Char.ofNat 8 :: p.1, p.2)) = some (Char.ofNat 8 :: cs, rest)
      rw [ih f0 rest hcs]
      rfl
    · have hc : c = Char.ofNat 12 := (Char.ofNat_toNat c).symm.trans (congrArg Char.ofNat h7)
      subst hc
      show (parseStringBodyF f0 (escapeChars cs ++ '"' :: rest)).map
        (fun p => (Char.ofNat 12 :: p.1, p.2)) = some (Char.ofNat 12 :: cs, rest)
      rw [ih f0 rest hcs]
      rfl
    · try simp only [List.cons_append, List.nil_append]
      rw [parseStringBodyF_u f0 '0' '0' (hexDigitChar (c.toNat / 16)) (hexDigitChar (c.toNat % 16))
        (escapeChars cs ++ '"' :: rest) 0 0 (c.toNat / 16) (c.toNat % 16) rfl rfl
        (hexVal_hexDigitChar (c.toNat / 16) (by omega)) (hexVal_hexDigitChar (c.toNat % 16) (by omega))]
      rw [ih f0 rest hcs]
      simp only [Option.map_some']
      have harith : ((0 * 16 + 0) * 16 + c.toNat / 16) * 16 + c.toNat % 16 = c.toNat := by omega
      rw [harith, Char.ofNat_toNat]
    · try simp only [List.cons_append, List.nil_append]
      rw [parseStringBodyF_plain f0 c (escapeChars cs ++ '"' :: rest) h1 h2
        (by omega : ¬ (c.toNat < 32))]
      rw [ih f0 rest hcs]
      rfl

theorem parseStringBody_escape (s rest : List Char) :
    parseStringBody (escapeChars s ++ '"' :: rest) = some (s, rest) := by
  rw [parseStringBody]
  apply parseStringBodyF_escape
  simp only [List.length_append, List.length_cons]
  omega

/-! ## Shape of serialized values -/

/-- Characters that can start a serialized JSON value. -/
def valueStart (c : Char) : Bool :=
  c = '"' || c = '[' || c = lbrace || c = 't' || c = 'f' || c = 'n' || c = '-' || c.isDigit

theorem natChars_head (n : Nat) : ∃ c t, natChars n = c :: t ∧ c.isDigit = true := by
  obtain ⟨hne, hdig, _⟩ := natChars_spec n
  cases h : natChars n with
  | nil => exact absurd h hne
  | cons c t => exact ⟨c, t, rfl, hdig c (by rw [h]; simp)⟩

theorem stringify_head (j : Json) :
    ∃ c t, stringifyChars j = c :: t ∧ valueStart c = true := by
  match j with
  | .null => exact ⟨'n', _, rfl, by decide⟩
  | .bool true => exact ⟨'t', _, rfl, by decide⟩
  | .bool false => exact ⟨'f', _, rfl, by decide⟩
  | .num n =>
    show ∃ c t, intChars n = c :: t ∧ valueStart c = true
    rw [intChars]
    split_ifs with hn
    · exact ⟨'-', _, rfl, by decide⟩
    · obtain ⟨c, t, hct, hd⟩ := natChars_head n.natAbs
      exact ⟨c, t, hct, by simp [valueStart, hd]⟩
  | .str s => exact ⟨'"', _, rfl, by decide⟩
  | .arr [] => exact ⟨'[', _, rfl, by decide⟩
  | .arr (x :: xs) => exact ⟨'[', _, rfl, by decide⟩
  | .obj [] => exact ⟨lbrace, _, rfl, by simp [valueStart]⟩
  | .obj ((k, v) :: fs) => exact ⟨lbrace, _, rfl, by simp [valueStart]⟩

theorem stringify_ne_nil (j : Json) : stringifyChars j ≠ [] := by
  obtain ⟨c, t, h, _⟩ := stringify_head j
  rw [h]
  simp

theorem stringify_length_pos (j : Json) : 1 ≤ (stringifyChars j).length := by
  obtain ⟨c, t, h, _⟩ := stringify_head j
  rw [h]
  simp

theorem valueStart_cases (c : Char) (h : valueStart c = true) :
    c = '"' ∨ c = '[' ∨ c = lbrace ∨ c = 't' ∨ c = 'f' ∨ c = 'n' ∨ c = '-' ∨ c.isDigit = true := by
  simpa [valueStart, or_assoc] using h

theorem valueStart_not_ws (c : Char) (h : valueStart c = true) : isWsChar c = false := by
  rcases valueStart_cases c h with h1 | h1 | h1 | h1 | h1 | h1 | h1 | h1
  · subst h1; decide
  · subst h1; decide
  · subst h1; decide
  · subst h1; decide
  · subst h1; decide
  · subst h1; decide
  · subst h1; decide
  · exact isDigit_not_ws c h1

theorem valueStart_ne_rbrack (c : Char) (h : valueStart c = true) : ¬ (c = ']') := by
  rcases valueStart_cases c h with h1 | h1 | h1 | h1 | h1 | h1 | h1 | h1
  · subst h1; decide
  · subst h1; decide
  · subst h1; decide
  · subst h1; decide
  · subst h1; decide
  · subst h1; decide
  · subst h1; decide
  · exact isDigit_ne c ']' h1 (by decide)

theorem valueStart_ne_rbrace (c : Char) (h : valueStart c = true) : ¬ (c = rbrace) := by
  rcases valueStart_cases c h with h1 | h1 | h1 | h1 | h1 | h1 | h1 | h1
  · subst h1; decide
  · subst h1; decide
  · subst h1; decide
  · subst h1; decide
  · subst h1; decide
  · subst h1; decide
  · subst h1; decide
  · exact isDigit_ne c rbrace h1 (by decide)

theorem valueStart_ne_btick (c : Char) (h : valueStart c = true) : ¬ (c = btick) := by
  rcases valueStart_cases c h with h1 | h1 | h1 | h1 | h1 | h1 | h1 | h1
  · subst h1; decide
  · subst h1; decide
  · subst h1; decide
  · subst h1; decide
  · subst h1; decide
  · subst h1; decide
  · subst h1; decide
  · exact isDigit_ne c btick h1 (by decide)

/-! ## Number parsing round-trip -/

theorem parseNumber_digits (ds rest : List Char) (hne : ds ≠ [])
    (hds : ∀ c ∈ ds, c.isDigit = true) (hfirst : ∀ c t, ds = c :: t → ¬ (c = '-'))
    (hlead : noLeadingZero ds = true)
    (hr : restSafe rest = true) :
    parseNumber (ds ++ rest) = some (Json.num ((digitsToNat ds : Int)), rest) := by
  cases ds with
  | nil => exact absurd rfl hne
  | cons c t =>
    rw [parseNumber.eq_def]
    simp only [List.cons_append]
    rw [if_neg (hfirst c t rfl)]
    have hspan := span_digits (c :: t) rest hds hr
    simp only [List.cons_append] at hspan
    rw [hspan]
    simp only [List.isEmpty, Bool.false_eq_true, if_false]
    rw [if_pos hlead]

theorem parseNumber_intChars (n : Int) (rest : List Char) (hr : restSafe rest = true) :
    parseNumber (intChars n ++ rest) = some (Json.num n, rest) := by
  rw [intChars]
  split_ifs with hn
  · -- negative
    obtain ⟨hne, hdig, hval⟩ := natChars_spec n.natAbs
    rw [List.cons_append, parseNumber.eq_def]
    simp only [reduceIte]
    rw [span_digits (natChars n.natAbs) rest hdig hr]
    have hemp : (natChars n.natAbs).isEmpty = false := by
      cases h : natChars n.natAbs with
      | nil => exact absurd h hne
      | cons a b => rfl
    rw [hemp]
    simp only [Bool.false_eq_true, if_false]
    rw [if_pos (natChars_lead n.natAbs)]
    rw [hval]
    have : -((n.natAbs : Int)) = n := by omega
    rw [this]
  · obtain ⟨hne, hdig, hval⟩ := natChars_spec n.natAbs
    rw [parseNumber_digits (natChars n.natAbs) rest hne hdig ?_ (natChars_lead n.natAbs) hr]
    · rw [hval]
      have : ((n.natAbs : Int)) = n := by omega
      rw [this]
    · intro c t hct he
      subst he
      have := hdig '-' (by rw [hct]; simp)
      exact absurd this (by decide)

/-! ## Parser step equations -/

theorem parseVal_succ (f : Nat) (l : List Char) :
    parseVal (f+1) l = parseValCore (parseItems f) (parseFields f) l := rfl

theorem parseItems_succ (f : Nat) (l : List Char) :
    parseItems (f+1) l = parseItemsCore (parseVal f) (parseItems f) l := rfl

theorem parseFields_succ (f : Nat) (l : List Char) :
    parseFields (f+1) l = parseFieldsCore (parseVal f) (parseFields f) l := rfl

/-! ## Branch lemmas for one parsing step -/

theorem parseValCore_quote (pi : List Char → Option (List Json × List Char))
    (pf : List Char → Option (List (String × Json) × List Char)) (r : List Char) :
    parseValCore pi pf ('"' :: r) =
      (parseStringBody r).map (fun p => (Json.str (String.mk p.1), p.2)) := by
  unfold parseValCore
  rw [skipWs_nows '"' r (by decide)]
  simp only []
  exact if_pos trivial

theorem parseValCore_true (pi : List Char → Option (List Json × List Char))
    (pf : List Char → Option (List (String × Json) × List Char)) (r : List Char) :
    parseValCore pi pf ('t' :: 'r' :: 'u' :: 'e' :: r) = some (Json.bool true, r) := by
  unfold parseValCore
  rw [skipWs_nows 't' _ (by decide)]
  simp only []
  try rw [if_neg (by decide : ¬ (('t' : Char) = '"'))]
  try rw [if_neg (by decide : ¬ (('t' : Char) = '['))]
  try rw [if_neg (by decide : ¬ ('t' = lbrace))]
  exact if_pos trivial

theorem parseValCore_false (pi : List Char → Option (List Json × List Char))
    (pf : List Char → Option (List (String × Json) × List Char)) (r : List Char) :
    parseValCore pi pf ('f' :: 'a' :: 'l' :: 's' :: 'e' :: r) = some (Json.bool false, r) := by
  unfold parseValCore
  rw [skipWs_nows 'f' _ (by decide)]
  simp only []
  try rw [if_neg (by decide : ¬ (('f' : Char) = '"'))]
  try rw [if_neg (by decide : ¬ (('f' : Char) = '['))]
  try rw [if_neg (by decide : ¬ ('f' = lbrace))]
  try rw [if_neg (by decide : ¬ (('f' : Char) = 't'))]
  exact if_pos trivial

theorem parseValCore_null (pi : List Char → Option (List Json × List Char))
    (pf : List Char → Option (List (String × Json) × List Char)) (r : List Char) :
    parseValCore pi pf ('n' :: 'u' :: 'l' :: 'l' :: r) = some (Json.null, r) := by
  unfold parseValCore
  rw [skipWs_nows 'n' _ (by decide)]
  simp only []
  try rw [if_neg (by decide : ¬ (('n' : Char) = '"'))]
  try rw [if_neg (by decide : ¬ (('n' : Char) = '['))]
  try rw [if_neg (by decide : ¬ ('n' = lbrace))]
  try rw [if_neg (by decide : ¬ (('n' : Char) = 't'))]
  try rw [if_neg (by decide : ¬ (('n' : Char) = 'f'))]
  exact if_pos trivial

theorem parseValCore_arrNil (pi : List Char → Option (List Json × List Char))
    (pf : List Char → Option (List (String × Json) × List Char)) (r : List Char) :
    parseValCore pi pf ('[' :: ']' :: r) = some (Json.arr [], r) := by
  unfold parseValCore
  rw [skipWs_nows '[' _ (by decide)]
  simp only []
  try rw [if_neg (by decide : ¬ (('[' : Char) = '"'))]
  rw [if_pos trivial]
  try rw [skipWs_nows ']' r (by decide)]
  split
  · rename_i r2 heq
    injection heq with h1 h2
    rw [h2]
  · rename_i hne
    exact absurd rfl (fun hh => hne r hh)

theorem parseValCore_arr (pi : List Char → Option (List Json × List Char))
    (pf : List Char → Option (List (String × Json) × List Char)) (c : Char) (r : List Char)
    (hw : isWsChar c = false) (hbr : ¬ (c = ']')) :
    parseValCore pi pf ('[' :: c :: r) = (pi (c :: r)).map (fun p => (Json.arr p.1, p.2)) := by
  unfold parseValCore
  rw [skipWs_nows '[' _ (by decide)]
  simp only []
  try rw [if_neg (by decide : ¬ (('[' : Char) = '"'))]
  rw [if_pos trivial]
  rw [skipWs_nows c r hw]
  split
  · rename_i r2 heq
    injection heq with h1 h2
    exact absurd h1 hbr
  · rfl

theorem parseValCore_objNil (pi : List Char → Option (List Json × List Char))
    (pf : List Char → Option (List (String × Json) × List Char)) (r : List Char) :
    parseValCore pi pf (lbrace :: rbrace :: r) = some (Json.obj [], r) := by
  unfold parseValCore
  rw [skipWs_nows lbrace _ (by decide)]
  simp only []
  try rw [if_neg (by decide : ¬ (lbrace = '"'))]
  try rw [if_neg (by decide : ¬ (lbrace = '['))]
  rw [if_pos trivial]
  try rw [skipWs_nows rbrace r (by decide)]
  try simp only []
  rw [if_pos trivial]

theorem parseValCore_obj (pi : List Char → Option (List Json × List Char))
    (pf : List Char → Option (List (String × Json) × List Char)) (c : Char) (r : List Char)
    (hw : isWsChar c = false) (hbr : ¬ (c = rbrace)) :
    parseValCore pi pf (lbrace :: c :: r) = (pf (c :: r)).map (fun p => (Json.obj p.1, p.2)) := by
  unfold parseValCore
  rw [skipWs_nows lbrace _ (by decide)]
  simp only []
  try rw [if_neg (by decide : ¬ (lbrace = '"'))]
  try rw [if_neg (by decide : ¬ (lbrace = '['))]
  rw [if_pos trivial]
  rw [skipWs_nows c r hw]
  simp only []
  rw [if_neg hbr]

theorem parseValCore_digit (pi : List Char → Option (List Json × List Char))
    (pf : List Char → Option (List (String × Json) × List Char)) (c : Char) (r : List Char)
    (hd : c.isDigit = true) :
    parseValCore pi pf (c :: r) = parseNumber (c :: r) := by
  unfold parseValCore
  rw [skipWs_nows c r (isDigit_not_ws c hd)]
  simp only []
  rw [if_neg (isDigit_ne c '"' hd (by decide)), if_neg (isDigit_ne c '[' hd (by decide)),
    if_neg (isDigit_ne c lbrace hd (by decide)), if_neg (isDigit_ne c 't' hd (by decide)),
    if_neg (isDigit_ne c 'f' hd (by decide)), if_neg (isDigit_ne c 'n' hd (by decide))]

theorem parseValCore_minus (pi : List Char → Option (List Json × List Char))
    (pf : List Char → Option (List (String × Json) × List Char)) (r : List Char) :
    parseValCore pi pf ('-' :: r) = parseNumber ('-' :: r) := by
  unfold parseValCore
  rw [skipWs_nows '-' r (by decide)]
  simp only []
  try rw [if_neg (by decide : ¬ (('-' : Char) = '"'))]
  try rw [if_neg (by decide : ¬ (('-' : Char) = '['))]
  try rw [if_neg (by decide : ¬ ('-' = lbrace))]
  try rw [if_neg (by decide : ¬ (('-' : Char) = 't'))]
  try rw [if_neg (by decide : ¬ (('-' : Char) = 'f'))]
  try rw [if_neg (by decide : ¬ (('-' : Char) = 'n'))]
  try rfl

/-! ## Round-trip: parsing a serialized value -/

theorem parseItems_stringify (F : Nat)
    (ihv : ∀ g, g < F → ∀ j rest, (stringifyChars j).length < g → restSafe rest = true →
      parseVal g (stringifyChars j ++ rest) = some (j, rest)) :
    ∀ xs x fl rest, fl < F →
      (stringifyChars x).length + (stringifyTail xs).length + 1 < fl →
      restSafe rest = true →
      parseItems fl (stringifyChars x ++ (stringifyTail xs ++ (']' :: rest))) = some (x :: xs, rest) := by
  intro xs
  induction xs with
  | nil =>
    intro x fl rest hflF hlen hrest
    have htl : (stringifyTail ([] : List Json)).length = 0 := rfl
    obtain ⟨fl0, rfl⟩ : ∃ m, fl = m + 1 := ⟨fl - 1, by omega⟩
    rw [parseItems_succ]
    unfold parseItemsCore
    rw [show stringifyTail ([] : List Json) = [] from rfl, List.nil_append]
    rw [ihv fl0 (by omega) x (']' :: rest) (by omega) (by rfl)]
    simp only []
    rw [skipWs_nows ']' rest (by decide)]
    split
    · rename_i r2 heq
      injection heq with h1 h2
      exact absurd h1 (by decide)
    · rename_i r2 heq
      injection heq with h1 h2
      rw [← h2]
    · rename_i hne1 hne2
      exact (hne2 rest rfl).elim
  | cons y ys ihxs =>
    intro x fl rest hflF hlen hrest
    have hx1 := stringify_length_pos x
    have hy1 := stringify_length_pos y
    have htl : (stringifyTail (y :: ys)).length =
        (stringifyChars y).length + (stringifyTail ys).length + 1 := by
      rw [show stringifyTail (y :: ys) = ',' :: (stringifyChars y ++ stringifyTail ys) from rfl]
      simp [List.length_append]
    obtain ⟨fl0, rfl⟩ : ∃ m, fl = m + 1 := ⟨fl - 1, by omega⟩
    rw [parseItems_succ]
    unfold parseItemsCore
    rw [show stringifyTail (y :: ys) = ',' :: (stringifyChars y ++ stringifyTail ys) from rfl]
    simp only [List.cons_append, List.append_assoc]
    rw [ihv fl0 (by omega) x
      (',' :: (stringifyChars y ++ (stringifyTail ys ++ (']' :: rest)))) (by omega) (by rfl)]
    simp only []
    rw [skipWs_nows ',' _ (by decide)]
    split
    · rename_i r2 heq
      injection heq with h1 h2
      rw [← h2]
      rw [ihxs y fl0 rest (by omega) (by omega) hrest]
      rfl
    · rename_i r2 heq
      injection heq with h1 h2
      exact absurd h1 (by decide)
    · rename_i hne1 hne2
      exact (hne1 _ rfl).elim

theorem quoteChars_length_pos (k : String) : 1 ≤ (quoteChars k).length := by
  rw [show quoteChars k = '"' :: (escapeChars k.data ++ ['"']) from rfl]
  simp

theorem parseFields_stringify (F : Nat)
    (ihv : ∀ g, g < F → ∀ j rest, (stringifyChars j).length < g → restSafe rest = true →
      parseVal g (stringifyChars j ++ rest) = some (j, rest)) :
    ∀ qs k v fl rest, fl < F →
      (quoteChars k).length + (stringifyChars v).length + (fieldsTail qs).length + 1 < fl →
      restSafe rest = true →
      parseFields fl (quoteChars k ++ (':' :: (stringifyChars v ++ (fieldsTail qs ++ (rbrace :: rest))))) =
        some ((k, v) :: qs, rest) := by
  intro qs
  induction qs with
  | nil =>
    intro k v fl rest hflF hlen hrest
    have hv1 := stringify_length_pos v
    have hq1 := quoteChars_length_pos k
    have htl : (fieldsTail ([] : List (String × Json))).length = 0 := rfl
    obtain ⟨fl0, rfl⟩ : ∃ m, fl = m + 1 := ⟨fl - 1, by omega⟩
    rw [parseFields_succ]
    unfold parseFieldsCore
    rw [show quoteChars k = '"' :: (escapeChars k.data ++ ['"']) from rfl]
    simp only [List.cons_append, List.append_assoc, List.singleton_append, List.nil_append]
    rw [skipWs_nows '"' _ (by decide)]
    split
    · rename_i r heq
      injection heq with h1 h2
      rw [← h2]
      rw [parseStringBody_escape k.data]
      simp only []
      rw [skipWs_nows ':' _ (by decide)]
      split
      · rename_i r3 heq2
        injection heq2 with h3 h4
        rw [← h4]
        rw [ihv fl0 (by omega) v (fieldsTail ([] : List (String × Json)) ++ (rbrace :: rest))
          (by omega)
          (by rw [show fieldsTail ([] : List (String × Json)) = [] from rfl, List.nil_append]; rfl)]
        simp only []
        rw [show fieldsTail ([] : List (String × Json)) = [] from rfl, List.nil_append]
        rw [skipWs_nows rbrace rest (by decide)]
        simp only []
        rw [if_neg (by decide : ¬ (rbrace = ','))]
        try rw [if_pos trivial]
        try rw [if_pos (show rbrace = rbrace from rfl)]
        try rfl
      · rename_i hne
        exact (hne _ rfl).elim
    · rename_i hne
      exact (hne _ rfl).elim
  | cons q qs2 ihqs =>
    obtain ⟨k2, v2⟩ := q
    intro k v fl rest hflF hlen hrest
    have hv1 := stringify_length_pos v
    have hq1 := quoteChars_length_pos k
    have hq2 := quoteChars_length_pos k2
    have hv2 := stringify_length_pos v2
    have htl : (fieldsTail ((k2, v2) :: qs2)).length =
        (quoteChars k2).length + (stringifyChars v2).length + (fieldsTail qs2).length + 2 := by
      rw [show fieldsTail ((k2, v2) :: qs2) =
        ',' :: (quoteChars k2 ++ ':' :: stringifyChars v2 ++ fieldsTail qs2) from rfl]
      simp only [List.length_cons, List.length_append]
      omega
    obtain ⟨fl0, rfl⟩ : ∃ m, fl = m + 1 := ⟨fl - 1, by omega⟩
    rw [parseFields_succ]
    unfold parseFieldsCore
    rw [show quoteChars k = '"' :: (escapeChars k.data ++ ['"']) from rfl]
    rw [show fieldsTail ((k2, v2) :: qs2) =
      ',' :: (quoteChars k2 ++ ':' :: stringifyChars v2 ++ fieldsTail qs2) from rfl]
    simp only [List.cons_append, List.append_assoc, List.singleton_append, List.nil_append]
    rw [skipWs_nows '"' _ (by decide)]
    split
    · rename_i r heq
      injection heq with h1 h2
      rw [← h2]
      rw [parseStringBody_escape k.data]
      simp only []
      rw [skipWs_nows ':' _ (by decide)]
      split
      · rename_i r3 heq2
        injection heq2 with h3 h4
        rw [← h4]
        rw [ihv fl0 (by omega) v
          (',' :: (quoteChars k2 ++ (':' :: (stringifyChars v2 ++ (fieldsTail qs2 ++ (rbrace :: rest))))))
          (by omega) (by rfl)]
        simp only []
        rw [skipWs_nows ',' _ (by decide)]
        simp only []
        try rw [if_pos trivial]
        try rw [if_pos (show (',' : Char) = ',' from rfl)]
        rw [ihqs k2 v2 fl0 rest (by omega) (by omega) hrest]
        rfl
      · rename_i hne
        exact (hne _ rfl).elim
    · rename_i hne
      exact (hne _ rfl).elim

theorem parseVal_stringify : ∀ f j rest, (stringifyChars j).length < f → restSafe rest = true →
    parseVal f (stringifyChars j ++ rest) = some (j, rest) := by
  intro f
  induction f using Nat.strong_induction_on with
  | _ f ihf =>
    intro j rest hlen hrest
    have hj1 := stringify_length_pos j
    obtain ⟨f0, rfl⟩ : ∃ m, f = m + 1 := ⟨f - 1, by omega⟩
    rw [parseVal_succ]
    cases j with
    | null =>
      rw [show stringifyChars Json.null = ['n', 'u', 'l', 'l'] from rfl]
      simp only [List.cons_append, List.nil_append]
      exact parseValCore_null _ _ rest
    | bool b =>
      cases b with
      | true =>
        rw [show stringifyChars (Json.bool true) = ['t', 'r', 'u', 'e'] from rfl]
        simp only [List.cons_append, List.nil_append]
        exact parseValCore_true _ _ rest
      | false =>
        rw [show stringifyChars (Json.bool false) = ['f', 'a', 'l', 's', 'e'] from rfl]
        simp only [List.cons_append, List.nil_append]
        exact parseValCore_false _ _ rest
    | num n =>
      rw [show stringifyChars (Json.num n) = intChars n from rfl]
      have hpn := parseNumber_intChars n rest hrest
      rw [intChars] at hpn ⊢
      split_ifs with hn
      · rw [if_pos hn] at hpn
        rw [List.cons_append, parseValCore_minus]
        rw [List.cons_append] at hpn
        exact hpn
      · rw [if_neg hn] at hpn
        obtain ⟨c, t, hct, hcd⟩ := natChars_head n.natAbs
        rw [hct, List.cons_append, parseValCore_digit _ _ c _ hcd]
        rw [hct, List.cons_append] at hpn
        exact hpn
    | str s =>
      rw [show stringifyChars (Json.str s) = '"' :: (escapeChars s.data ++ ['"']) from rfl]
      simp only [List.cons_append, List.append_assoc, List.singleton_append, List.nil_append]
      rw [parseValCore_quote]
      rw [parseStringBody_escape s.data rest]
      rfl
    | arr xs =>
      cases xs with
      | nil =>
        rw [show stringifyChars (Json.arr []) = ['[', ']'] from rfl]
        simp only [List.cons_append, List.nil_append]
        exact parseValCore_arrNil _ _ rest
      | cons x xs2 =>
        have hlen2 : (stringifyChars (Json.arr (x :: xs2))).length =
            (stringifyChars x).length + (stringifyTail xs2).length + 2 := by
          rw [show stringifyChars (Json.arr (x :: xs2)) =
            '[' :: ((stringifyChars x ++ stringifyTail xs2) ++ [']']) from rfl]
          simp only [List.length_cons, List.length_append, List.length_nil]
          try omega
        rw [show stringifyChars (Json.arr (x :: xs2)) =
          '[' :: ((stringifyChars x ++ stringifyTail xs2) ++ [']']) from rfl]
        simp only [List.cons_append, List.append_assoc, List.singleton_append, List.nil_append]
        obtain ⟨c, t, hct, hcv⟩ := stringify_head x
        rw [hct, List.cons_append]
        rw [parseValCore_arr _ _ c _ (valueStart_not_ws c hcv) (valueStart_ne_rbrack c hcv)]
        rw [← List.cons_append, ← hct]
        rw [parseItems_stringify (f0 + 1) (fun g hg => ihf g hg) xs2 x f0 rest
          (by omega) (by omega) hrest]
        rfl
    | obj fs =>
      cases fs with
      | nil =>
        rw [show stringifyChars (Json.obj []) = [lbrace, rbrace] from rfl]
        simp only [List.cons_append, List.nil_append]
        exact parseValCore_objNil _ _ rest
      | cons q fs2 =>
        obtain ⟨k, v⟩ := q
        have hlen2 : (stringifyChars (Json.obj ((k, v) :: fs2))).length =
            (quoteChars k).length + (stringifyChars v).length + (fieldsTail fs2).length + 3 := by
          rw [show stringifyChars (Json.obj ((k, v) :: fs2)) =
            lbrace :: ((quoteChars k ++ ':' :: stringifyChars v ++ fieldsTail fs2) ++ [rbrace]) from rfl]
          simp only [List.length_cons, List.length_append, List.length_nil]
          try omega
        rw [show stringifyChars (Json.obj ((k, v) :: fs2)) =
          lbrace :: ((quoteChars k ++ ':' :: stringifyChars v ++ fieldsTail fs2) ++ [rbrace]) from rfl]
        simp only [List.cons_append, List.append_assoc, List.singleton_append, List.nil_append]
        rw [show quoteChars k = '"' :: (escapeChars k.data ++ ['"']) from rfl]
        simp only [List.cons_append]
        rw [parseValCore_obj _ _ '"' _ (by decide) (by decide)]
        rw [← List.cons_append, ← show quoteChars k = '"' :: (escapeChars k.data ++ ['"']) from rfl]
        rw [parseFields_stringify (f0 + 1) (fun g hg => ihf g hg) fs2 k v f0 rest
          (by omega) (by omega) hrest]
        rfl

theorem jsonParseChars_stringify (j : Json) : jsonParseChars (stringifyChars j) = some j := by
  unfold jsonParseChars
  have h := parseVal_stringify ((stringifyChars j).length + 1) j [] (by omega) (by rfl)
  rw [List.append_nil] at h
  rw [h]
  rfl

theorem jsonParse_stringify (j : Json) : jsonParse (stringify j) = some j := by
  show jsonParseChars (String.mk (stringifyChars j)).data = some j
  exact jsonParseChars_stringify j

/-! ## Trim and fence-stripping lemmas -/

theorem exists_rev_head (l : List Char) (h : l ≠ []) : ∃ c t, l.reverse = c :: t ∧ c ∈ l := by
  cases hr : l.reverse with
  | nil =>
    exfalso
    have : l = [] := by
      have := congrArg List.reverse hr
      simpa using this
    exact h this
  | cons c t =>
    refine ⟨c, t, rfl, ?_⟩
    rw [← List.mem_reverse, hr]
    simp

theorem stringify_rev_head (j : Json) :
    ∃ c t, (stringifyChars j).reverse = c :: t ∧ isWsChar c = false := by
  cases j with
  | null => exact ⟨'l', ['l', 'u', 'n'], by decide, by decide⟩
  | bool b =>
    cases b with
    | true => exact ⟨'e', ['u', 'r', 't'], by decide, by decide⟩
    | false => exact ⟨'e', ['s', 'l', 'a', 'f'], by decide, by decide⟩
  | num n =>
    obtain ⟨hne, hdig, _⟩ := natChars_spec n.natAbs
    rw [show stringifyChars (Json.num n) = intChars n from rfl, intChars]
    split_ifs with hn
    · obtain ⟨c, t, hct, hcm⟩ := exists_rev_head (natChars n.natAbs) hne
      refine ⟨c, t ++ ['-'], ?_, isDigit_not_ws c (hdig c hcm)⟩
      rw [List.reverse_cons, hct]
      rfl
    · obtain ⟨c, t, hct, hcm⟩ := exists_rev_head (natChars n.natAbs) hne
      exact ⟨c, t, hct, isDigit_not_ws c (hdig c hcm)⟩
  | str s =>
    refine ⟨'"', (escapeChars s.data).reverse ++ ['"'], ?_, by decide⟩
    rw [show stringifyChars (Json.str s) = '"' :: (escapeChars s.data ++ ['"']) from rfl]
    simp [List.reverse_cons, List.reverse_append]
  | arr xs =>
    cases xs with
    | nil => exact ⟨']', ['['], by decide, by decide⟩
    | cons x xs2 =>
      refine ⟨']', (stringifyChars x ++ stringifyTail xs2).reverse ++ ['['], ?_, by decide⟩
      rw [show stringifyChars (Json.arr (x :: xs2)) =
        '[' :: ((stringifyChars x ++ stringifyTail xs2) ++ [']']) from rfl]
      simp [List.reverse_cons, List.reverse_append]
  | obj fs =>
    cases fs with
    | nil =>
      refine ⟨rbrace, [lbrace], ?_, by decide⟩
      rfl
    | cons q fs2 =>
      obtain ⟨k, v⟩ := q
      refine ⟨rbrace,
        (quoteChars k ++ ':' :: stringifyChars v ++ fieldsTail fs2).reverse ++ [lbrace], ?_,
        by decide⟩
      rw [show stringifyChars (Json.obj ((k, v) :: fs2)) =
        lbrace :: ((quoteChars k ++ ':' :: stringifyChars v ++ fieldsTail fs2) ++ [rbrace]) from rfl]
      simp [List.reverse_cons, List.reverse_append]

theorem jsTrim_sandwich (ws1 mid ws2 : List Char)
    (h1 : ∀ c ∈ ws1, isWsChar c = true) (h2 : ∀ c ∈ ws2, isWsChar c = true)
    (hh : ∃ c t, mid = c :: t ∧ isWsChar c = false)
    (hl : ∃ c t, mid.reverse = c :: t ∧ isWsChar c = false) :
    jsTrim (ws1 ++ (mid ++ ws2)) = mid := by
  obtain ⟨c, t, hct, hcw⟩ := hh
  obtain ⟨c2, t2, hct2, hcw2⟩ := hl
  unfold jsTrim
  rw [dropWhile_ws_all ws1 (mid ++ ws2) h1]
  rw [hct, List.cons_append, dropWhile_head_nows c (t ++ ws2) hcw, ← List.cons_append, ← hct]
  rw [List.reverse_append]
  rw [dropWhile_ws_all ws2.reverse mid.reverse
    (fun c3 hc3 => h2 c3 (List.mem_reverse.mp hc3))]
  rw [hct2, dropWhile_head_nows c2 t2 hcw2, ← hct2, List.reverse_reverse]

theorem fence3_not_prefix (c : Char) (t : List Char) (hc : ¬ (c = btick)) :
    List.isPrefixOf fence3 (c :: t) = false := by
  show List.isPrefixOf [btick, btick, btick] (c :: t) = false
  cases hbc : btick == c with
  | false => simp [List.isPrefixOf, hbc]
  | true => exact absurd (beq_iff_eq.mp hbc).symm hc

theorem stripFenceOpen_fenced (opt body : List Char)
    (hopt : opt = [] ∨ opt = ['j', 's', 'o', 'n']) :
    stripFenceOpen (fence3 ++ (opt ++ ('\n' :: body))) = body := by
  unfold stripFenceOpen
  have hpre : List.isPrefixOf fence3 (fence3 ++ (opt ++ ('\n' :: body))) = true := by
    rw [List.isPrefixOf_iff_prefix]
    exact List.prefix_append _ _
  rw [if_pos hpre]
  have hdrop : (fence3 ++ (opt ++ ('\n' :: body))).drop 3 = opt ++ ('\n' :: body) := by
    rw [show (3 : Nat) = fence3.length from rfl]
    exact List.drop_left _ _
  rw [hdrop]
  rcases hopt with rfl | rfl
  · rw [List.nil_append]
    rw [show List.isPrefixOf (['j', 's', 'o', 'n']) ('\n' :: body) = false from by
      simp [List.isPrefixOf]]
    simp
  · have hpre2 : List.isPrefixOf (['j', 's', 'o', 'n']) (['j', 's', 'o', 'n'] ++ ('\n' :: body)) = true := by
      rw [List.isPrefixOf_iff_prefix]
      exact List.prefix_append _ _
    rw [hpre2]
    simp only [if_true]
    have hdrop2 : ((['j', 's', 'o', 'n'] : List Char) ++ ('\n' :: body)).drop 4 = '\n' :: body := by
      rw [show (4 : Nat) = (['j', 's', 'o', 'n'] : List Char).length from rfl]
      exact List.drop_left _ _
    rw [hdrop2]
    split
    · rename_i r heq
      injection heq with h1 h2
      exact h2.symm
    · rename_i hne
      exact (hne body rfl).elim

theorem stripFenceClose_fenced (body : List Char) :
    stripFenceClose (body ++ ('\n' :: fence3)) = body := by
  unfold stripFenceClose
  have hsuf : List.isSuffixOf ('\n' :: fence3) (body ++ ('\n' :: fence3)) = true := by
    rw [List.isSuffixOf_iff_suffix]
    exact List.suffix_append _ _
  rw [if_pos hsuf]
  have hlen : (body ++ ('\n' :: fence3)).length - 4 = body.length := by
    simp [List.length_append, fence3]
  rw [hlen]
  have h := List.take_left body ('\n' :: fence3)
  exact h

theorem sanitizeOutput_bare (ws1 ws2 : List Char) (j : Json)
    (h1 : ∀ c ∈ ws1, isWsChar c = true) (h2 : ∀ c ∈ ws2, isWsChar c = true) :
    sanitizeOutput (ws1 ++ (stringifyChars j ++ ws2)) = stringifyChars j := by
  obtain ⟨c, t, hct, hcv⟩ := stringify_head j
  have htrim := jsTrim_sandwich ws1 (stringifyChars j) ws2 h1 h2
    ⟨c, t, hct, valueStart_not_ws c hcv⟩ (stringify_rev_head j)
  unfold sanitizeOutput
  rw [htrim, hct, fence3_not_prefix c t (valueStart_ne_btick c hcv)]
  try simp

theorem sanitizeOutput_fenced (ws1 ws2 opt : List Char) (j : Json)
    (h1 : ∀ c ∈ ws1, isWsChar c = true) (h2 : ∀ c ∈ ws2, isWsChar c = true)
    (hopt : opt = [] ∨ opt = ['j', 's', 'o', 'n']) :
    sanitizeOutput
      (ws1 ++ ((fence3 ++ (opt ++ ('\n' :: (stringifyChars j ++ ('\n' :: fence3))))) ++ ws2)) =
      stringifyChars j := by
  have hmid : fence3 ++ (opt ++ ('\n' :: (stringifyChars j ++ ('\n' :: fence3)))) =
      (fence3 ++ (opt ++ ('\n' :: (stringifyChars j ++ ['\n', btick, btick])))) ++ [btick] := by
    simp [fence3, List.append_assoc]
  have hh : ∃ c t, fence3 ++ (opt ++ ('\n' :: (stringifyChars j ++ ('\n' :: fence3)))) = c :: t ∧
      isWsChar c = false := by
    refine ⟨btick, btick :: btick :: (opt ++ ('\n' :: (stringifyChars j ++ ('\n' :: fence3)))), ?_, by decide⟩
    rfl
  have hl : ∃ c t,
      (fence3 ++ (opt ++ ('\n' :: (stringifyChars j ++ ('\n' :: fence3))))).reverse = c :: t ∧
      isWsChar c = false := by
    refine ⟨btick,
      (fence3 ++ (opt ++ ('\n' :: (stringifyChars j ++ ['\n', btick, btick])))).reverse, ?_, by decide⟩
    rw [hmid]
    simp [List.reverse_append]
  have htrim := jsTrim_sandwich ws1 _ ws2 h1 h2 hh hl
  unfold sanitizeOutput
  rw [htrim]
  have hpre : List.isPrefixOf fence3
      (fence3 ++ (opt ++ ('\n' :: (stringifyChars j ++ ('\n' :: fence3))))) = true := by
    rw [List.isPrefixOf_iff_prefix]
    exact List.prefix_append _ _
  rw [if_pos hpre]
  rw [stripFenceOpen_fenced opt (stringifyChars j ++ ('\n' :: fence3)) hopt]
  rw [stripFenceClose_fenced (stringifyChars j)]

/-! ## Handler behaviour helpers -/

/-- The `success` field of the JSON envelope carried by a response body. -/
def successFlag (r : HandlerResponse) : Option Json :=
  (jsonParse r.body).bind (fun j => getField j ("success"))

theorem isNull_false_of_truthy_prompt (b : Json)
    (hp : jsTruthyOpt (getField b ("prompt")) = true) : Json.isNull b = false := by
  cases b <;> first | rfl | exact absurd hp (by decide)

theorem handler_race_case (env : ProcessEnv) (event : NetlifyEvent) (gen : GenBehavior)
    (bodyJson : Json)
    (hkey : jsFalsyOptStr env.apiKey = false)
    (hm : event.httpMethod = "POST")
    (hb : jsonParse (jsBodyOr event.body) = some bodyJson)
    (hp : jsTruthyOpt (getField bodyJson ("prompt")) = true) :
    handler env event gen =
      (match raceOutcome gen with
       | Except.ok output => jsonResponse 200 (okEnvelope output)
       | Except.error m => jsonResponse 200 (errEnvelope (jsStrOr m internalErrorMsg))) := by
  unfold handler
  rw [hm, hkey, hb]
  simp only []
  rw [isNull_false_of_truthy_prompt bodyJson hp, hp]
  rfl

/-! ## The claims -/

/-- C1: for every incoming POST event, each error class the handler deals
with (falsy API key, a body that fails to parse, a missing or falsy
`prompt` — including a parsed `null` body, whose destructuring throws
into the `catch` — and a rejected or timed-out race) produces a response
with status 200, `Content-Type: application/json`, and a serialized
`{ success: false, error: <message> }` envelope. -/
theorem claim1_error_classes_uniform_envelope
    (env : ProcessEnv) (event : NetlifyEvent) (gen : GenBehavior)
    (hm : event.httpMethod = "POST")
    (herr : jsFalsyOptStr env.apiKey = true
      ∨ jsonParse (jsBodyOr event.body) = none
      ∨ (∃ b, jsonParse (jsBodyOr event.body) = some b ∧
          jsTruthyOpt (getField b ("prompt")) = false)
      ∨ (∃ m, raceOutcome gen = Except.error m)) :
    ∃ msg, handler env event gen = jsonResponse 200 (errEnvelope msg) ∧
      (handler env event gen).statusCode = 200 ∧
      (handler env event gen).contentType = "application/json" := by
  by_cases hk : jsFalsyOptStr env.apiKey = true
  · have h1 : handler env event gen = jsonResponse 200 (errEnvelope missingKeyMsg) := by
      unfold handler
      rw [hm, hk]
      rfl
    exact ⟨missingKeyMsg, h1, by rw [h1]; rfl, by rw [h1]; rfl⟩
  · have hk2 : jsFalsyOptStr env.apiKey = false := by
      cases h2 : jsFalsyOptStr env.apiKey with
      | true => exact absurd h2 hk
      | false => rfl
    cases hpj : jsonParse (jsBodyOr event.body) with
    | none =>
      have h1 : handler env event gen =
          jsonResponse 200 (errEnvelope (jsStrOr parseFailMsg internalErrorMsg)) := by
        unfold handler
        rw [hm, hk2, hpj]
        rfl
      exact ⟨jsStrOr parseFailMsg internalErrorMsg, h1, by rw [h1]; rfl, by rw [h1]; rfl⟩
    | some b =>
      cases hbp : jsTruthyOpt (getField b ("prompt")) with
      | false =>
        cases hbn : Json.isNull b with
        | true =>
          have h1 : handler env event gen =
              jsonResponse 200 (errEnvelope (jsStrOr destructureNullMsg internalErrorMsg)) := by
            unfold handler
            rw [hm, hk2, hpj]
            simp only []
            rw [hbn]
            rfl
          exact ⟨jsStrOr destructureNullMsg internalErrorMsg, h1,
            by rw [h1]; rfl, by rw [h1]; rfl⟩
        | false =>
          have h1 : handler env event gen = jsonResponse 200 (errEnvelope missingPromptMsg) := by
            unfold handler
            rw [hm, hk2, hpj]
            simp only []
            rw [hbn, hbp]
            rfl
          exact ⟨missingPromptMsg, h1, by rw [h1]; rfl, by rw [h1]; rfl⟩
      | true =>
        have hbn := isNull_false_of_truthy_prompt b hbp
        rcases herr with h | h | ⟨b2, hb2, ht2⟩ | ⟨m, hrm⟩
        · exact absurd h hk
        · rw [hpj] at h
          exact Option.noConfusion h
        · rw [hpj] at hb2
          injection hb2 with he
          subst he
          rw [hbp] at ht2
          exact Bool.noConfusion ht2
        · have h1 : handler env event gen =
              jsonResponse 200 (errEnvelope (jsStrOr m internalErrorMsg)) := by
            unfold handler
            rw [hm, hk2, hpj]
            simp only []
            rw [hbn, hbp, hrm]
            rfl
          exact ⟨jsStrOr m internalErrorMsg, h1, by rw [h1]; rfl, by rw [h1]; rfl⟩

/-- Witness for C1 at a concrete input: an unset API key on a POST event. -/
theorem claim1_witness :
    ∃ msg, handler ⟨none⟩ ⟨"POST", none⟩ ⟨none, Except.ok ("x")⟩ =
        jsonResponse 200 (errEnvelope msg) ∧
      (handler ⟨none⟩ ⟨"POST", none⟩ ⟨none, Except.ok ("x")⟩).statusCode = 200 ∧
      (handler ⟨none⟩ ⟨"POST", none⟩ ⟨none, Except.ok ("x")⟩).contentType = "application/json" :=
  claim1_error_classes_uniform_envelope ⟨none⟩ ⟨"POST", none⟩ ⟨none, Except.ok ("x")⟩
    rfl (Or.inl rfl)

/-- C2: on a POST request with a configured key, a parsed body, and a
truthy prompt, a generation promise that does not settle strictly before
the 8000 ms timer always yields the response
`{ success: false, error: "AI evaluation timed out after 8 seconds" }`
with status 200. -/
theorem claim2_slow_generation_times_out
    (env : ProcessEnv) (event : NetlifyEvent) (gen : GenBehavior) (bodyJson : Json)
    (hkey : jsFalsyOptStr env.apiKey = false)
    (hm : event.httpMethod = "POST")
    (hb : jsonParse (jsBodyOr event.body) = some bodyJson)
    (hp : jsTruthyOpt (getField bodyJson ("prompt")) = true)
    (hslow : ∀ t, gen.settleAt = some t → timeoutMs ≤ t) :
    handler env event gen = jsonResponse 200 (errEnvelope timeoutMsg) := by
  rw [handler_race_case env event gen bodyJson hkey hm hb hp]
  unfold raceOutcome
  cases hst : gen.settleAt with
  | none => rfl
  | some t =>
    simp only []
    rw [if_neg (by have := hslow t hst; omega)]
    try rfl

/-- Witness for C2 at a concrete input: settlement at 9000 ms. -/
theorem claim2_witness :
    handler ⟨some ("k")⟩ ⟨"POST", some (stringify (Json.obj [("prompt", Json.str ("hi"))]))⟩
      ⟨some 9000, Except.ok ("OUT")⟩ = jsonResponse 200 (errEnvelope timeoutMsg) :=
  claim2_slow_generation_times_out ⟨some ("k")⟩
    ⟨"POST", some (stringify (Json.obj [("prompt", Json.str ("hi"))]))⟩
    ⟨some 9000, Except.ok ("OUT")⟩ (Json.obj [("prompt", Json.str ("hi"))])
    rfl rfl rfl rfl
    (fun t ht => by injection ht with h; subst h; decide)

/-- C3 counterexample: the claim says a generation that settles first
yields `{ success: true, output: <model text> }`, but a generation that
settles first by rejecting (here at 0 ms) yields an envelope whose
`success` field is `false`. -/
theorem claim3_counterexample :
    successFlag (handler ⟨some ("k")⟩
      ⟨"POST", some (stringify (Json.obj [("prompt", Json.str ("hi"))]))⟩
      ⟨some 0, Except.error ("Gemini API failure")⟩) = some (Json.bool false) := rfl

/-- C3 (amended): the outcome is decided by the race alone: a generation
fulfilling strictly before 8000 ms yields the success envelope, a
generation rejecting strictly before 8000 ms yields its error envelope,
and when the generation does not settle before the timer the response is
the timeout envelope whatever the generation's eventual settlement is
(the abandoned loser never changes the response). -/
theorem claim3_race_decides_response
    (env : ProcessEnv) (event : NetlifyEvent) (gen : GenBehavior) (bodyJson : Json)
    (hkey : jsFalsyOptStr env.apiKey = false)
    (hm : event.httpMethod = "POST")
    (hb : jsonParse (jsBodyOr event.body) = some bodyJson)
    (hp : jsTruthyOpt (getField bodyJson ("prompt")) = true) :
    (∀ t out, gen.settleAt = some t → t < timeoutMs → gen.result = Except.ok out →
      handler env event gen = jsonResponse 200 (okEnvelope out)) ∧
    (∀ t m, gen.settleAt = some t → t < timeoutMs → gen.result = Except.error m →
      handler env event gen = jsonResponse 200 (errEnvelope (jsStrOr m internalErrorMsg))) ∧
    (∀ gen2 : GenBehavior, (∀ t, gen2.settleAt = some t → timeoutMs ≤ t) →
      handler env event gen2 = jsonResponse 200 (errEnvelope timeoutMsg)) := by
  refine ⟨?_, ?_, ?_⟩
  · intro t out hst hlt hres
    rw [handler_race_case env event gen bodyJson hkey hm hb hp]
    unfold raceOutcome
    rw [hst]
    simp only []
    rw [if_pos hlt, hres]
    try rfl
  · intro t m hst hlt hres
    rw [handler_race_case env event gen bodyJson hkey hm hb hp]
    unfold raceOutcome
    rw [hst]
    simp only []
    rw [if_pos hlt, hres]
    try rfl
  · intro gen2 hslow
    rw [handler_race_case env event gen2 bodyJson hkey hm hb hp]
    unfold raceOutcome
    cases hst : gen2.settleAt with
    | none => rfl
    | some t =>
      simp only []
      rw [if_neg (by have := hslow t hst; omega)]
      try rfl

/-- Witness for C3 at concrete inputs: a fulfilment at 100 ms, a
rejection at 0 ms, and a never-settling generation. -/
theorem claim3_witness :
    handler ⟨some ("k")⟩ ⟨"POST", some (stringify (Json.obj [("prompt", Json.str ("hi"))]))⟩
        ⟨some 100, Except.ok ("OUT")⟩ = jsonResponse 200 (okEnvelope ("OUT")) ∧
    handler ⟨some ("k")⟩ ⟨"POST", some (stringify (Json.obj [("prompt", Json.str ("hi"))]))⟩
        ⟨some 0, Except.error ("boom")⟩ =
      jsonResponse 200 (errEnvelope (jsStrOr ("boom") internalErrorMsg)) ∧
    handler ⟨some ("k")⟩ ⟨"POST", some (stringify (Json.obj [("prompt", Json.str ("hi"))]))⟩
        ⟨none, Except.ok ("OUT")⟩ = jsonResponse 200 (errEnvelope timeoutMsg) :=
  ⟨(claim3_race_decides_response ⟨some ("k")⟩
      ⟨"POST", some (stringify (Json.obj [("prompt", Json.str ("hi"))]))⟩
      ⟨some 100, Except.ok ("OUT")⟩ (Json.obj [("prompt", Json.str ("hi"))])
      rfl rfl rfl rfl).1 100 ("OUT") rfl (by decide) rfl,
   (claim3_race_decides_response ⟨some ("k")⟩
      ⟨"POST", some (stringify (Json.obj [("prompt", Json.str ("hi"))]))⟩
      ⟨some 0, Except.error ("boom")⟩ (Json.obj [("prompt", Json.str ("hi"))])
      rfl rfl rfl rfl).2.1 0 ("boom") rfl (by decide) rfl,
   (claim3_race_decides_response ⟨some ("k")⟩
      ⟨"POST", some (stringify (Json.obj [("prompt", Json.str ("hi"))]))⟩
      ⟨some 0, Except.ok ("x")⟩ (Json.obj [("prompt", Json.str ("hi"))])
      rfl rfl rfl rfl).2.2 ⟨none, Except.ok ("OUT")⟩ (fun t ht => Option.noConfusion ht)⟩

/-- String concatenation is associative. -/
theorem strAppend_assoc (a b c : String) : (a ++ b) ++ c = a ++ (b ++ c) := by
  show String.mk ((a ++ b).data ++ c.data) = String.mk (a.data ++ (b ++ c).data)
  rw [show (a ++ b).data = a.data ++ b.data from rfl, show (b ++ c).data = b.data ++ c.data from rfl,
    List.append_assoc]

/-- C4: for every JSON value `r`, an `output` string that is the
serialization of `r` either bare or wrapped in a markdown fence
(```` ``` ```` or ```` ```json ```` opening line and а closing ```` ``` ````
line), possibly with surrounding whitespace, is sanitized by the client
and parsed back to exactly `r`. -/
theorem claim4_fence_stripping_roundtrip (j : Json) (out ws1 ws2 opt : List Char)
    (hw1 : ∀ c ∈ ws1, isWsChar c = true) (hw2 : ∀ c ∈ ws2, isWsChar c = true)
    (hopt : opt = [] ∨ opt = ['j', 's', 'o', 'n'])
    (hout : out = ws1 ++ (stringifyChars j ++ ws2)
      ∨ out = ws1 ++ ((fence3 ++ (opt ++ ('\n' :: (stringifyChars j ++ ('\n' :: fence3))))) ++ ws2)) :
    parseModelOutput (String.mk out) = some j := by
  unfold parseModelOutput
  rw [show (String.mk out).data = out from rfl]
  rcases hout with rfl | rfl
  · rw [sanitizeOutput_bare ws1 ws2 j hw1 hw2]
    exact jsonParseChars_stringify j
  · rw [sanitizeOutput_fenced ws1 ws2 opt j hw1 hw2 hopt]
    exact jsonParseChars_stringify j

/-- Witness for C4 at a concrete input: a report object wrapped in a
```` ```json ```` fence with surrounding whitespace. -/
theorem claim4_witness :
    parseModelOutput (String.mk ([' '] ++
      ((fence3 ++ ((['j', 's', 'o', 'n']) ++
        ('\n' :: (stringifyChars (Json.obj [("totalScore", Json.num 7)]) ++ ('\n' :: fence3))))) ++
        ['\n']))) = some (Json.obj [("totalScore", Json.num 7)]) :=
  claim4_fence_stripping_roundtrip (Json.obj [("totalScore", Json.num 7)]) _
    [' '] ['\n'] (['j', 's', 'o', 'n']) (by decide) (by decide) (Or.inr rfl) (Or.inr rfl)

set_option maxRecDepth 20000 in
/-- C5 counterexample: the unnamed variant client posts the fields
`sourceDoc`, `dirtyFeedbackDoc` and `mode`, but the deployed handler
reads only `prompt`; a request built by that client is answered with the
missing-prompt error, so the fields the handler reads are not the fields
that client sent. -/
theorem claim5_counterexample :
    handler ⟨some ("k")⟩
      ⟨"POST", some (stringify (part004RequestBodyJson
        (processFile ⟨"a.png", "image/png", "", "QUJD"⟩) none EvaluationMode.withoutManual))⟩
      ⟨some 0, Except.ok ("OUT")⟩ = jsonResponse 200 (errEnvelope missingPromptMsg) := rfl

/-- C5 (amended, for the live client of `services/geminiService.ts`):
the posted body has the single field `prompt`, whose array value embeds
the evaluation-mode flag (inside the system instructions) and the
document payloads; `prompt` is exactly the field the handler reads, and
on such a request the handler proceeds to the generation race. -/
theorem claim5_live_client_contract (s : FileData) (d : Option FileData) (m : EvaluationMode)
    (env : ProcessEnv) (gen : GenBehavior)
    (hkey : jsFalsyOptStr env.apiKey = false) :
    getField (requestBodyJson s d m) ("prompt") =
      some (Json.arr ((buildPromptParts s d m).map promptPartToJson)) ∧
    (buildPromptParts s d m).head? = some (PromptPart.text (systemInstructions m)) ∧
    (∃ pre post, systemInstructions m = pre ++ (modeString m ++ post)) ∧
    (jsTruthyOptStr s.text = true →
      PromptPart.text (("Student Paper Text: ") ++ s.text.getD ("")) ∈ buildPromptParts s d m) ∧
    (jsTruthyOptStr s.text = false →
      (jsTruthyOptStr s.base64 && jsTruthyOptStr s.mimeType) = true →
      PromptPart.inlineData (s.base64.getD ("")) (s.mimeType.getD ("")) ∈ buildPromptParts s d m) ∧
    handler env ⟨"POST", some (requestBodyString s d m)⟩ gen =
      (match raceOutcome gen with
       | Except.ok output => jsonResponse 200 (okEnvelope output)
       | Except.error m2 => jsonResponse 200 (errEnvelope (jsStrOr m2 internalErrorMsg))) := by
  have hget : getField (requestBodyJson s d m) ("prompt") =
      some (Json.arr ((buildPromptParts s d m).map promptPartToJson)) := rfl
  refine ⟨hget, ?_, ?_, ?_, ?_, ?_⟩
  · simp [buildPromptParts]
  · refine ⟨instructionsHead, (".\n      ") ++
      ((if m = EvaluationMode.withManual then withManualRule else withoutManualRule) ++
        instructionsTail), ?_⟩
    unfold systemInstructions
    rw [strAppend_assoc, strAppend_assoc, strAppend_assoc]
  · intro htext
    simp [buildPromptParts, htext]
  · intro htext hbm
    simp [buildPromptParts, htext, hbm]
  · have hne : ¬ (requestBodyString s d m = "") := by
      intro he
      have hdata : (requestBodyString s d m).data = [] := by
        rw [he]
      exact stringify_ne_nil (requestBodyJson s d m) hdata
    have hparse : jsonParse (jsBodyOr (some (requestBodyString s d m))) =
        some (requestBodyJson s d m) := by
      show jsonParse (if requestBodyString s d m = "" then ("\x7b\x7d")
        else requestBodyString s d m) = some (requestBodyJson s d m)
      rw [if_neg hne]
      exact jsonParse_stringify (requestBodyJson s d m)
    exact handler_race_case env ⟨"POST", some (requestBodyString s d m)⟩ gen
      (requestBodyJson s d m) hkey rfl hparse (by rw [hget]; rfl)

/-- Witness for C5 at a concrete input. -/
theorem claim5_witness :
    getField (requestBodyJson ⟨none, none, some ("T"), "a.docx", true⟩ none
        EvaluationMode.withoutManual) ("prompt") =
      some (Json.arr ((buildPromptParts ⟨none, none, some ("T"), "a.docx", true⟩ none
        EvaluationMode.withoutManual).map promptPartToJson)) ∧
    (buildPromptParts ⟨none, none, some ("T"), "a.docx", true⟩ none
        EvaluationMode.withoutManual).head? =
      some (PromptPart.text (systemInstructions EvaluationMode.withoutManual)) ∧
    (∃ pre post, systemInstructions EvaluationMode.withoutManual =
      pre ++ (modeString EvaluationMode.withoutManual ++ post)) ∧
    (jsTruthyOptStr (⟨none, none, some ("T"), "a.docx", true⟩ : FileData).text = true →
      PromptPart.text (("Student Paper Text: ") ++
          (⟨none, none, some ("T"), "a.docx", true⟩ : FileData).text.getD ("")) ∈
        buildPromptParts ⟨none, none, some ("T"), "a.docx", true⟩ none
          EvaluationMode.withoutManual) ∧
    (jsTruthyOptStr (⟨none, none, some ("T"), "a.docx", true⟩ : FileData).text = false →
      (jsTruthyOptStr (⟨none, none, some ("T"), "a.docx", true⟩ : FileData).base64 &&
        jsTruthyOptStr (⟨none, none, some ("T"), "a.docx", true⟩ : FileData).mimeType) = true →
      PromptPart.inlineData ((⟨none, none, some ("T"), "a.docx", true⟩ : FileData).base64.getD (""))
          ((⟨none, none, some ("T"), "a.docx", true⟩ : FileData).mimeType.getD ("")) ∈
        buildPromptParts ⟨none, none, some ("T"), "a.docx", true⟩ none
          EvaluationMode.withoutManual) ∧
    handler ⟨some ("k")⟩
        ⟨"POST", some (requestBodyString ⟨none, none, some ("T"), "a.docx", true⟩ none
          EvaluationMode.withoutManual)⟩ ⟨some 1, Except.ok ("OUT")⟩ =
      (match raceOutcome ⟨some 1, Except.ok ("OUT")⟩ with
       | Except.ok output => jsonResponse 200 (okEnvelope output)
       | Except.error m2 => jsonResponse 200 (errEnvelope (jsStrOr m2 internalErrorMsg))) :=
  claim5_live_client_contract ⟨none, none, some ("T"), "a.docx", true⟩ none
    EvaluationMode.withoutManual ⟨some ("k")⟩ ⟨some 1, Except.ok ("OUT")⟩ rfl

/-- C6: in `without-manual` mode the faculty-notes document is ignored:
the assembled prompt parts and the posted body string are identical for
any two values of `dirtyFeedbackDoc`. -/
theorem claim6_without_manual_ignores_notes (s : FileData) (d1 d2 : Option FileData) :
    buildPromptParts s d1 EvaluationMode.withoutManual =
      buildPromptParts s d2 EvaluationMode.withoutManual ∧
    requestBodyString s d1 EvaluationMode.withoutManual =
      requestBodyString s d2 EvaluationMode.withoutManual := by
  have hparts : buildPromptParts s d1 EvaluationMode.withoutManual =
      buildPromptParts s d2 EvaluationMode.withoutManual := by
    cases d1 <;> cases d2 <;> rfl
  exact ⟨hparts, by unfold requestBodyString requestBodyJson; rw [hparts]⟩

/-- C7 counterexample: the claim says every POST whose parsed body lacks
a truthy `prompt` gets the missing-prompt envelope, but the body `null`
parses to JSON `null` (which has no `prompt`), and then
`const \x7b prompt \x7d = body` throws a `TypeError` that the `catch`
turns into a different error envelope. -/
theorem claim7_counterexample :
    jsonParse (jsBodyOr (some ("null"))) = some Json.null ∧
    jsTruthyOpt (getField Json.null ("prompt")) = false ∧
    handler ⟨some ("k")⟩ ⟨"POST", some ("null")⟩ ⟨some 1, Except.ok ("OUT")⟩ =
      jsonResponse 200 (errEnvelope (jsStrOr destructureNullMsg internalErrorMsg)) ∧
    handler ⟨some ("k")⟩ ⟨"POST", some ("null")⟩ ⟨some 1, Except.ok ("OUT")⟩ ≠
      jsonResponse 200 (errEnvelope missingPromptMsg) :=
  ⟨rfl, rfl, rfl,
   fun h => absurd (congrArg HandlerResponse.body h) (by decide)⟩

/-- C7 (amended): with a configured key, a POST whose parsed body lacks a
truthy `prompt` never reaches the generation call (the response is
independent of the generation behaviour); when the parsed body is not
`null` the answer is the documented missing-prompt envelope, and when it
is `null` the destructuring of `prompt` throws a `TypeError` whose
message the `catch` returns instead. -/
theorem claim7_missing_prompt_rejected
    (env : ProcessEnv) (event : NetlifyEvent) (gen : GenBehavior) (bodyJson : Json)
    (hkey : jsFalsyOptStr env.apiKey = false)
    (hm : event.httpMethod = "POST")
    (hb : jsonParse (jsBodyOr event.body) = some bodyJson)
    (hp : jsTruthyOpt (getField bodyJson ("prompt")) = false) :
    (Json.isNull bodyJson = false →
      handler env event gen = jsonResponse 200 (errEnvelope missingPromptMsg)) ∧
    (Json.isNull bodyJson = true →
      handler env event gen =
        jsonResponse 200 (errEnvelope (jsStrOr destructureNullMsg internalErrorMsg))) ∧
    (∀ gen2 : GenBehavior, handler env event gen2 = handler env event gen) := by
  have key : ∀ g : GenBehavior, handler env event g =
      (if Json.isNull bodyJson then
        jsonResponse 200 (errEnvelope (jsStrOr destructureNullMsg internalErrorMsg))
      else jsonResponse 200 (errEnvelope missingPromptMsg)) := by
    intro g
    unfold handler
    rw [hm, hkey, hb]
    simp only []
    cases hbn : Json.isNull bodyJson with
    | true => rfl
    | false =>
      rw [hp]
      rfl
  refine ⟨?_, ?_, fun g2 => (key g2).trans (key gen).symm⟩
  · intro hbn
    rw [key gen, hbn]
    rfl
  · intro hbn
    rw [key gen, hbn]
    rfl

/-- Witness for C7 at a concrete input: a body whose prompt is the empty
string. -/
theorem claim7_witness :
    ((Json.obj [("prompt", Json.str (""))]).isNull = false →
      handler ⟨some ("k")⟩ ⟨"POST", some (stringify (Json.obj [("prompt", Json.str (""))]))⟩
        ⟨some 1, Except.ok ("OUT")⟩ = jsonResponse 200 (errEnvelope missingPromptMsg)) ∧
    ((Json.obj [("prompt", Json.str (""))]).isNull = true →
      handler ⟨some ("k")⟩ ⟨"POST", some (stringify (Json.obj [("prompt", Json.str (""))]))⟩
        ⟨some 1, Except.ok ("OUT")⟩ =
          jsonResponse 200 (errEnvelope (jsStrOr destructureNullMsg internalErrorMsg))) ∧
    (∀ gen2 : GenBehavior, handler ⟨some ("k")⟩
        ⟨"POST", some (stringify (Json.obj [("prompt", Json.str (""))]))⟩ gen2 =
      handler ⟨some ("k")⟩ ⟨"POST", some (stringify (Json.obj [("prompt", Json.str (""))]))⟩
        ⟨some 1, Except.ok ("OUT")⟩) :=
  claim7_missing_prompt_rejected ⟨some ("k")⟩
    ⟨"POST", some (stringify (Json.obj [("prompt", Json.str (""))]))⟩
    ⟨some 1, Except.ok ("OUT")⟩ (Json.obj [("prompt", Json.str (""))]) rfl rfl rfl rfl

/-- C8: `processFile` always keeps the file name, and returns either
extracted text (for `.docx` names, with `isDocx` true) or base64 content
plus the MIME type (otherwise, with `isDocx` false); text and base64 are
never both absent. -/
theorem claim8_processFile_shape (file : UploadFile) :
    (processFile file).name = file.name ∧
    ((processFile file).isDocx = true ∧ endsWithDocx file.name = true ∧
        (processFile file).text = some file.extractedText ∧
        (processFile file).base64 = none ∧ (processFile file).mimeType = none
      ∨ (processFile file).isDocx = false ∧ endsWithDocx file.name = false ∧
        (processFile file).base64 = some file.base64Content ∧
        (processFile file).mimeType = some file.mimeType ∧ (processFile file).text = none) ∧
    ¬ ((processFile file).text = none ∧ (processFile file).base64 = none) := by
  unfold processFile
  cases h : endsWithDocx file.name with
  | true =>
    refine ⟨rfl, Or.inl ⟨rfl, rfl, rfl, rfl, rfl⟩, ?_⟩
    intro hcon
    exact Option.noConfusion hcon.1
  | false =>
    refine ⟨rfl, Or.inr ⟨rfl, rfl, rfl, rfl, rfl⟩, ?_⟩
    intro hcon
    exact Option.noConfusion hcon.2

/-- Witness for C8 at a concrete input: a `.docx` upload. -/
theorem claim8_witness :
    (processFile ⟨"notes.docx", "m", "TEXT", "B64"⟩).name = "notes.docx" ∧
    ((processFile ⟨"notes.docx", "m", "TEXT", "B64"⟩).isDocx = true ∧
        endsWithDocx ("notes.docx") = true ∧
        (processFile ⟨"notes.docx", "m", "TEXT", "B64"⟩).text = some ("TEXT") ∧
        (processFile ⟨"notes.docx", "m", "TEXT", "B64"⟩).base64 = none ∧
        (processFile ⟨"notes.docx", "m", "TEXT", "B64"⟩).mimeType = none
      ∨ (processFile ⟨"notes.docx", "m", "TEXT", "B64"⟩).isDocx = false ∧
        endsWithDocx ("notes.docx") = false ∧
        (processFile ⟨"notes.docx", "m", "TEXT", "B64"⟩).base64 = some ("B64") ∧
        (processFile ⟨"notes.docx", "m", "TEXT", "B64"⟩).mimeType = some ("m") ∧
        (processFile ⟨"notes.docx", "m", "TEXT", "B64"⟩).text = none) ∧
    ¬ ((processFile ⟨"notes.docx", "m", "TEXT", "B64"⟩).text = none ∧
      (processFile ⟨"notes.docx", "m", "TEXT", "B64"⟩).base64 = none) :=
  claim8_processFile_shape ⟨"notes.docx", "m", "TEXT", "B64"⟩

/-- C9: a non-POST event is answered with status 405 and the
method-not-allowed envelope for every environment, body and generation
behaviour (so no credential check, body parse or generation settles the
outcome), and POST events always get status 200. -/
theorem claim9_method_gate :
    (∀ (env : ProcessEnv) (event : NetlifyEvent) (gen : GenBehavior),
      event.httpMethod ≠ "POST" →
        handler env event gen = jsonResponse 405 (errEnvelope methodNotAllowedMsg)) ∧
    (∀ (env : ProcessEnv) (event : NetlifyEvent) (gen : GenBehavior),
      event.httpMethod = "POST" → (handler env event gen).statusCode = 200) := by
  constructor
  · intro env event gen hne
    unfold handler
    rw [if_pos hne]
  · intro env event gen hm
    unfold handler
    rw [hm]
    rw [if_neg (by simp)]
    split
    · rfl
    · split
      · rfl
      · split
        · rfl
        · split
          · rfl
          · split
            · rfl
            · rfl

/-- Witness for C9 at concrete inputs: a GET event and a POST event. -/
theorem claim9_witness :
    handler ⟨some ("k")⟩ ⟨"GET", none⟩ ⟨none, Except.ok ("x")⟩ =
      jsonResponse 405 (errEnvelope methodNotAllowedMsg) ∧
    (handler ⟨some ("k")⟩ ⟨"POST", none⟩ ⟨none, Except.ok ("x")⟩).statusCode = 200 :=
  ⟨claim9_method_gate.1 ⟨some ("k")⟩ ⟨"GET", none⟩ ⟨none, Except.ok ("x")⟩ (by decide),
   claim9_method_gate.2 ⟨some ("k")⟩ ⟨"POST", none⟩ ⟨none, Except.ok ("x")⟩ rfl⟩

/-- C10: with a configured key, a POST whose body is absent, null or
empty is not a parse error: the body defaults to `"{}"`, the parsed
object lacks `prompt`, and the missing-prompt envelope is returned with
status 200. -/
theorem claim10_empty_body_defaults
    (env : ProcessEnv) (event : NetlifyEvent) (gen : GenBehavior)
    (hkey : jsFalsyOptStr env.apiKey = false)
    (hm : event.httpMethod = "POST")
    (hb : event.body = none ∨ event.body = some ("")) :
    jsonParse (jsBodyOr event.body) = some (Json.obj []) ∧
    handler env event gen = jsonResponse 200 (errEnvelope missingPromptMsg) := by
  have hparse : jsonParse (jsBodyOr event.body) = some (Json.obj []) := by
    rcases hb with h | h <;> rw [h] <;> rfl
  refine ⟨hparse, ?_⟩
  unfold handler
  rw [hm, hkey, hparse]
  rfl

/-- Witness for C10 at a concrete input: an absent body. -/
theorem claim10_witness :
    jsonParse (jsBodyOr (⟨"POST", none⟩ : NetlifyEvent).body) = some (Json.obj []) ∧
    handler ⟨some ("k")⟩ ⟨"POST", none⟩ ⟨some 1, Except.ok ("OUT")⟩ =
      jsonResponse 200 (errEnvelope missingPromptMsg) :=
  claim10_empty_body_defaults ⟨some ("k")⟩ ⟨"POST", none⟩ ⟨some 1, Except.ok ("OUT")⟩
    rfl rfl (Or.inl rfl)
